import Mathlib

/-!
Verification development for the bulbs-tui fleet controller.

The Rust sources under `src/` are shallowly embedded:
  * `src/api.rs`   — `Bulb`, `Device`, `Devices`, the HTTP control client and
    the UDP discovery loop;
  * `src/app.rs`   — the interactive `App` state machine.

Network effects are made explicit: every HTTP call's outcome is supplied by a
`Net` environment (request ↦ response body or error), JSON decoding of a
status body by `Net.decodeBulb`, and the UDP socket's receive results by a
list of `RecvResult` events.  Rust methods that take `&mut self` and return
`Result` are embedded as functions returning the updated value together with
the `Result` and the list of HTTP requests actually issued (the trace), since
in Rust mutations performed before an error persist.

`f32` values are embedded by their exact rational value; the one place the
spec's claims depend on `f32` arithmetic (the brightness epsilon gate) gets a
faithful round-to-nearest-even binary32 rounding model.
-/

namespace BulbsTui

/-- HTTP request issued against a device's control endpoint; mirrors the URLs
built in `src/api.rs` (`/led`, `/led/on`, `/led/off`, `/led/color/<hex>`,
`/led/brightness/<v>`). -/
inductive Request where
  | getStatus (ip : String)
  | turnOn (ip : String)
  | turnOff (ip : String)
  | putColor (ip : String) (color : String)
  | putBrightness (ip : String) (value : ℚ)
  deriving DecidableEq

/-- Bulb state (`struct Bulb` in `src/api.rs`).  `brightness` is an `f32` in
the source, embedded by its exact rational value; `enabled` is a `u8` in the
source ("api uses int instead of bool"), embedded as `Nat`. -/
structure Bulb where
  brightness : ℚ
  color : String
  enabled : Nat
  deriving DecidableEq

/-- Rust `Bulb::default()` (the `#[derive(Default)]` instance used by
`Device::new` through `..Default::default()`): zero brightness, empty color
string, `enabled = 0`.  The `serde` field defaults (`1.0`, `"#FFFFFF"`) apply
only during deserialization, not here. -/
def Bulb.rustDefault : Bulb := ⟨0, "", 0⟩

instance : Inhabited Bulb := ⟨Bulb.rustDefault⟩

/-- A device (`struct Device` in `src/api.rs`): bulb state plus address,
display name and the selection flag. -/
structure Device where
  bulb : Bulb
  ip : String
  name : String
  selected : Bool
  deriving DecidableEq

instance : Inhabited Device := ⟨⟨Bulb.rustDefault, "", "", true⟩⟩

/-- `Device::new` (`src/api.rs`): fresh device, `selected = true`, default
bulb state. -/
def Device.new (ip name : String) : Device :=
  { bulb := Bulb.rustDefault, ip := ip, name := name, selected := true }

/-- Decidable equality for `Except`, needed to evaluate the witnesses by
`decide`. -/
instance exceptDecEq {ε α : Type} [DecidableEq ε] [DecidableEq α] :
    DecidableEq (Except ε α) := fun x y =>
  match x, y with
  | Except.error a, Except.error b =>
    if h : a = b then isTrue (by rw [h])
    else isFalse (by intro hc; cases hc; exact h rfl)
  | Except.error _, Except.ok _ => isFalse (by intro hc; cases hc)
  | Except.ok _, Except.error _ => isFalse (by intro hc; cases hc)
  | Except.ok a, Except.ok b =>
    if h : a = b then isTrue (by rw [h])
    else isFalse (by intro hc; cases hc; exact h rfl)

/-- Environment supplying the outcome of each HTTP call (the `ureq` agent with
the `with_body` error conversion folded into an error string) and the
`serde_json` decoding of a status body into a `Bulb`. -/
structure Net where
  http : Request → Except String String
  decodeBulb : String → Except String Bulb

/-- Outcome of a single-device call: the `Result`, the device after the call
(mutations persist even when the overall call errors) and the requests
issued. -/
structure DevOutcome (α : Type) where
  result : Except String α
  dev : Device
  trace : List Request
  deriving DecidableEq

/-- `Device::get_status` (`src/api.rs`): GET `/led`; on transport/status
error the local bulb is untouched; on a decode error of the body the local
bulb is also untouched; on success the bulb is replaced wholesale and the
summary `"<ip>: <body>"` is returned. -/
def Device.get_status (net : Net) (d : Device) : DevOutcome String :=
  match net.http (Request.getStatus d.ip) with
  | Except.error e => ⟨Except.error e, d, [Request.getStatus d.ip]⟩
  | Except.ok resp =>
    match net.decodeBulb resp with
    | Except.error e => ⟨Except.error e, d, [Request.getStatus d.ip]⟩
    | Except.ok b =>
      ⟨Except.ok (d.ip ++ ": " ++ resp), { d with bulb := b }, [Request.getStatus d.ip]⟩

/-- `Device::on` (`src/api.rs`): PUT `/led/on`; sets `enabled := 1` locally
only after the call succeeded. -/
def Device.on (net : Net) (d : Device) : DevOutcome Unit :=
  match net.http (Request.turnOn d.ip) with
  | Except.error e => ⟨Except.error e, d, [Request.turnOn d.ip]⟩
  | Except.ok _ =>
    ⟨Except.ok (), { d with bulb := { d.bulb with enabled := 1 } }, [Request.turnOn d.ip]⟩

/-- `Device::off` (`src/api.rs`): PUT `/led/off`; sets `enabled := 0` locally
only after the call succeeded. -/
def Device.off (net : Net) (d : Device) : DevOutcome Unit :=
  match net.http (Request.turnOff d.ip) with
  | Except.error e => ⟨Except.error e, d, [Request.turnOff d.ip]⟩
  | Except.ok _ =>
    ⟨Except.ok (), { d with bulb := { d.bulb with enabled := 0 } }, [Request.turnOff d.ip]⟩

/-- `Device::toggle` (`src/api.rs`): `off` when the locally cached
`enabled == 1`, else `on`; no fresh fetch. -/
def Device.toggle (net : Net) (d : Device) : DevOutcome Unit :=
  if d.bulb.enabled = 1 then d.off net else d.on net

/-- The `color.strip_prefix('#').unwrap_or(color)` idiom of `src/api.rs` and
`src/app.rs`: drop one leading `#` when present. -/
def stripHash (s : String) : String :=
  match s.toList with
  | '#' :: rest => String.mk rest
  | _ => s

/-- `Device::set_color` (`src/api.rs`): drop a leading `#`, PUT
`/led/color/<hex>`, and on success store `"#" ++ hex` locally. -/
def Device.set_color (net : Net) (color : String) (d : Device) : DevOutcome Unit :=
  let c := stripHash color
  match net.http (Request.putColor d.ip c) with
  | Except.error e => ⟨Except.error e, d, [Request.putColor d.ip c]⟩
  | Except.ok _ =>
    ⟨Except.ok (), { d with bulb := { d.bulb with color := "#" ++ c } },
      [Request.putColor d.ip c]⟩

/-- `Device::set_brightness` (`src/api.rs`): PUT `/led/brightness/<v>`, and on
success store the value locally, with no client-side clamping. -/
def Device.set_brightness (net : Net) (b : ℚ) (d : Device) : DevOutcome Unit :=
  match net.http (Request.putBrightness d.ip b) with
  | Except.error e => ⟨Except.error e, d, [Request.putBrightness d.ip b]⟩
  | Except.ok _ =>
    ⟨Except.ok (), { d with bulb := { d.bulb with brightness := b } },
      [Request.putBrightness d.ip b]⟩

/-- The fleet (`struct Devices` in `src/api.rs`); the `ureq::Agent` field is
configuration folded into `Net`. -/
structure Devices where
  bulbs : List Device
  deriving DecidableEq

/-- Outcome of a fleet-level call: the `Result`, the device list after the
call (per-device mutations made before an error persist) and the issued
requests. -/
structure FleetOutcome (α : Type) where
  result : Except String α
  bulbs : List Device
  trace : List Request
  deriving DecidableEq

/-- `Devices::add` (`src/api.rs`): construct the device, fetch its status
immediately, and push it onto the fleet only when that fetch succeeded; the
fetch's error is propagated otherwise.  Note that this fleet-level method
performs no duplicate-address check — that check lives in
`App::add_device` (`src/app.rs`). -/
def Devices.add (net : Net) (ds : Devices) (ip name : String) : FleetOutcome String :=
  let o := Device.get_status net (Device.new ip name)
  match o.result with
  | Except.error e => ⟨Except.error e, ds.bulbs, o.trace⟩
  | Except.ok resp => ⟨Except.ok resp, ds.bulbs ++ [o.dev], o.trace⟩

/-- Shared shape of the fleet batch loops of `src/api.rs` (`Devices::on`,
`Devices::off`, `Devices::set_color`, `Devices::set_brightness`): visit the
devices in order, apply `op` to each selected one, and stop at the first
per-device error (devices updated before the error keep their update). -/
def batchGo (op : Device → DevOutcome Unit) : List Device → FleetOutcome Unit
  | [] => ⟨Except.ok (), [], []⟩
  | d :: rest =>
    if d.selected then
      let o := op d
      match o.result with
      | Except.error e => ⟨Except.error e, o.dev :: rest, o.trace⟩
      | Except.ok _ =>
        let r := batchGo op rest
        ⟨r.result, o.dev :: r.bulbs, o.trace ++ r.trace⟩
    else
      let r := batchGo op rest
      ⟨r.result, d :: r.bulbs, r.trace⟩

/-- `Devices::on` (`src/api.rs`): fail-fast `Device::on` over selected
devices. -/
def Devices.on (net : Net) (ds : Devices) : FleetOutcome Unit :=
  batchGo (Device.on net) ds.bulbs

/-- `Devices::off` (`src/api.rs`): fail-fast `Device::off` over selected
devices. -/
def Devices.off (net : Net) (ds : Devices) : FleetOutcome Unit :=
  batchGo (Device.off net) ds.bulbs

/-- `Devices::set_color` (`src/api.rs`): fail-fast `Device::set_color` over
selected devices. -/
def Devices.set_color (net : Net) (color : String) (ds : Devices) : FleetOutcome Unit :=
  batchGo (Device.set_color net color) ds.bulbs

/-- `Devices::set_brightness` (`src/api.rs`): fail-fast
`Device::set_brightness` over selected devices. -/
def Devices.set_brightness (net : Net) (b : ℚ) (ds : Devices) : FleetOutcome Unit :=
  batchGo (Device.set_brightness net b) ds.bulbs

/-- The reference-state scan of `Devices::toggle` (`src/api.rs`): the cached
`enabled` of the first selected device, `0` when no device is selected. -/
def firstSelectedEnabled : List Device → Nat
  | [] => 0
  | d :: rest => if d.selected then d.bulb.enabled else firstSelectedEnabled rest

/-- `Devices::toggle` (`src/api.rs`): read the first selected device's cached
`enabled` (no fetch), then `off` on all selected devices when it is `1`, else
`on`. -/
def Devices.toggle (net : Net) (ds : Devices) : FleetOutcome Unit :=
  if firstSelectedEnabled ds.bulbs = 1 then ds.off net else ds.on net

/-- The status-accumulating loop of `Devices::get_status` (`src/api.rs`):
visit devices in order, fetch each selected one, concatenate the summaries,
stop at the first error. -/
def get_status_go (net : Net) : List Device → FleetOutcome String
  | [] => ⟨Except.ok "", [], []⟩
  | d :: rest =>
    if d.selected then
      let o := Device.get_status net d
      match o.result with
      | Except.error e => ⟨Except.error e, o.dev :: rest, o.trace⟩
      | Except.ok s =>
        let r := get_status_go net rest
        ⟨(match r.result with
          | Except.error e => Except.error e
          | Except.ok acc => Except.ok (s ++ acc)),
         o.dev :: r.bulbs, o.trace ++ r.trace⟩
    else
      let r := get_status_go net rest
      ⟨r.result, d :: r.bulbs, r.trace⟩

/-- `Devices::get_status` (`src/api.rs`): run the accumulating loop; when the
accumulated response is empty return the `None` sentinel instead. -/
def Devices.get_status (net : Net) (ds : Devices) : FleetOutcome (Option String) :=
  let r := get_status_go net ds.bulbs
  ⟨r.result.map (fun s => if s = "" then none else some s), r.bulbs, r.trace⟩

/-- The 16 ASCII bytes of the pong magic `"bulbsserverpong0"` of
`discover_bulbs` (`src/api.rs`). -/
def BULBS_PONG : List Nat :=
  [98, 117, 108, 98, 115, 115, 101, 114, 118, 101, 114, 112, 111, 110, 103, 48]

/-- One result of `socket.recv_from` in the discovery loop: a datagram with
its payload bytes and sender IP (the port is dropped by `addr.ip()`), a
`WouldBlock` timeout, or any other receive error. -/
inductive RecvResult where
  | datagram (payload : List Nat) (ip : String)
  | wouldBlock
  | fail (e : String)
  deriving DecidableEq

/-- `recv_from` buffer semantics: the first `min |payload| |buf|` bytes of the
buffer are overwritten with the payload, the rest of the buffer keeps its
previous contents. -/
def recvInto (buf payload : List Nat) : List Nat :=
  payload.take buf.length ++ buf.drop (min payload.length buf.length)

/-- The receive loop of `discover_bulbs` (`src/api.rs`), driven by the finite
list of socket results it consumes before terminating: each datagram is read
into the 16-byte buffer and the sender's IP is collected when the buffer then
equals the pong magic; a `WouldBlock` timeout returns the addresses collected
so far; any other receive error is propagated.  (The real loop only exits on
`WouldBlock` or a receive error, so the event list of an actual run always
ends with one of those; the `[]` case is unreachable there.) -/
def discover_go : List Nat → List String → List RecvResult → Except String (List String)
  | _, devices, [] => Except.ok devices
  | buf, devices, ev :: rest =>
    match ev with
    | RecvResult.datagram p ip =>
      let buf2 := recvInto buf p
      discover_go buf2 (if buf2 = BULBS_PONG then devices ++ [ip] else devices) rest
    | RecvResult.wouldBlock => Except.ok devices
    | RecvResult.fail e => Except.error e

/-- `discover_bulbs` (`src/api.rs`): after the broadcast ping, run the receive
loop starting from the zero-initialized 16-byte buffer and no collected
addresses. -/
def discover_bulbs (events : List RecvResult) : Except String (List String) :=
  discover_go (List.replicate 16 0) [] events

/-- `enum CurrentWidget` (`src/app.rs`). -/
inductive CurrentWidget where
  | Devices
  | Logs
  | AddDevice
  | DeviceSettings
  deriving DecidableEq

/-- `enum CurrentlyAdding` (`src/app.rs`). -/
inductive CurrentlyAdding where
  | IP
  | Name
  deriving DecidableEq

/-- `enum CurrentlySetting` (`src/app.rs`). -/
inductive CurrentlySetting where
  | Color
  | Brightness
  deriving DecidableEq

/-- `struct App` (`src/app.rs`); the `agent` and `config_path` fields are
configuration, folded into `Net` respectively dropped (persistence is out of
scope of the claims). -/
structure App where
  devices : Devices
  logs : List String
  current_device_index : Nat
  current_widget : CurrentWidget
  currently_adding : Option CurrentlyAdding
  currently_setting : Option CurrentlySetting
  log_horizontal_offset : Nat
  color_input : String
  brightness_input : String
  ip_input : String
  name_input : String
  deriving DecidableEq

/-- `App::prev_device` (`src/app.rs`): saturating decrement of the current
index. -/
def App.prev_device (a : App) : App :=
  { a with current_device_index := a.current_device_index - 1 }

/-- `App::next_device` (`src/app.rs`): increment the current index only while
it is below `len - 1` (saturating on the empty list). -/
def App.next_device (a : App) : App :=
  if a.current_device_index < a.devices.bulbs.length - 1 then
    { a with current_device_index := a.current_device_index + 1 }
  else a

/-- `App::select_device` (`src/app.rs`): flip the selection flag of the
current device when the list is non-empty. -/
def App.select_device (a : App) : App :=
  if a.devices.bulbs = [] then a
  else
    let d := a.devices.bulbs.getD a.current_device_index default
    { a with
        devices :=
          ⟨a.devices.bulbs.set a.current_device_index { d with selected := !d.selected }⟩ }

/-- `App::remove_device` (`src/app.rs`): when the list is non-empty, remove
the device at the current index and then `prev_device` (clamping the
index). -/
def App.remove_device (a : App) : App :=
  if a.devices.bulbs = [] then a
  else
    App.prev_device
      { a with devices := ⟨a.devices.bulbs.eraseIdx a.current_device_index⟩ }

/-- `App::add_device` (`src/app.rs`): reject an IP already present in the
fleet (logging `Device "<ip>" already added` and changing nothing else); for
a non-empty fresh IP, fetch the new device's status and append it only on
success, clearing the input buffers; on fetch failure log the error and
return early (the form stays open); an empty IP just closes the form. -/
def App.add_device (net : Net) (a : App) : App × List Request :=
  if a.devices.bulbs.any (fun x => x.ip == a.ip_input) then
    ({ a with logs := a.logs ++ ["Device \"" ++ a.ip_input ++ "\" already added"] }, [])
  else if a.ip_input = "" then
    ({ a with currently_adding := none, current_widget := CurrentWidget.Devices }, [])
  else
    let o := Device.get_status net (Device.new a.ip_input a.name_input)
    match o.result with
    | Except.error e => ({ a with logs := a.logs ++ [e] }, o.trace)
    | Except.ok v =>
      ({ a with
          logs := a.logs ++ [v],
          devices := ⟨a.devices.bulbs ++ [o.dev]⟩,
          ip_input := "",
          name_input := "",
          currently_adding := none,
          current_widget := CurrentWidget.Devices }, o.trace)

/-- The per-address loop of `App::discover` (`src/app.rs`): skip addresses
already in the fleet; otherwise fetch the candidate device's status, log the
summary and append it on success — but on a fetch error, log it and `return`
from the whole function, abandoning the remaining addresses. -/
def App.discover_go (net : Net) : App → List String → App × List Request
  | a, [] => (a, [])
  | a, ip :: rest =>
    if a.devices.bulbs.any (fun x => x.ip == ip) then
      App.discover_go net a rest
    else
      let o := Device.get_status net (Device.new ip "")
      match o.result with
      | Except.error e => ({ a with logs := a.logs ++ [e] }, o.trace)
      | Except.ok v =>
        let a2 :=
          { a with logs := a.logs ++ [v], devices := ⟨a.devices.bulbs ++ [o.dev]⟩ }
        let r := App.discover_go net a2 rest
        (r.1, o.trace ++ r.2)

/-- `App::discover` (`src/app.rs`): `disc` is the outcome of the
`api::discover_bulbs(200)` call (see `discover_bulbs`); a discovery error is
logged, otherwise the per-address add loop runs. -/
def App.discover (net : Net) (disc : Except String (List String)) (a : App) :
    App × List Request :=
  match disc with
  | Except.error e => ({ a with logs := a.logs ++ [e] }, [])
  | Except.ok v => App.discover_go net a v

/-- Kernel-computable subtraction on `ℚ` (Batteries marks `Rat.sub` and
friends `@[irreducible]`, which blocks `decide`; `Rat.divInt` does reduce).
`qsub_eq` below proves it agrees with `Sub.sub`. -/
def qsub (a b : ℚ) : ℚ := Rat.divInt (a.num * b.den - b.num * a.den) (a.den * b.den)

/-- Kernel-computable multiplication on `ℚ`; agrees with `Mul.mul` by
`qmul_eq`. -/
def qmul (a b : ℚ) : ℚ := Rat.divInt (a.num * b.num) (a.den * b.den)

/-- Kernel-computable division on `ℚ`; agrees with `Div.div` by `qdiv_eq`. -/
def qdiv (a b : ℚ) : ℚ := Rat.divInt (a.num * b.den) (a.den * b.num)

/-- Kernel-computable absolute value on `ℚ`; agrees with `abs` by
`qabs_eq`. -/
def qabs (a : ℚ) : ℚ := Rat.divInt (a.num.natAbs : ℤ) (a.den : ℤ)

/-- Kernel-computable negation on `ℚ`; agrees with `Neg.neg` by `qneg_eq`. -/
def qneg (a : ℚ) : ℚ := Rat.divInt (-a.num) (a.den : ℤ)

/-- Kernel-computable ceiling on `ℚ`; agrees with `Int.ceil` by `qceil_eq`. -/
def qceil (q : ℚ) : ℤ := -⌊qneg q⌋

/-- Round a rational to the nearest integer, ties to even — the rounding mode
of IEEE 754 binary32 arithmetic and of Rust's decimal-to-`f32` conversion. -/
def roundHalfEven (q : ℚ) : ℤ :=
  if qsub q (Rat.divInt ⌊q⌋ 1) < Rat.divInt 1 2 then ⌊q⌋
  else if Rat.divInt 1 2 < qsub q (Rat.divInt ⌊q⌋ 1) then ⌊q⌋ + 1
  else if ⌊q⌋ % 2 = 0 then ⌊q⌋ else ⌊q⌋ + 1

/-- Fuel-driven base-2 floor logarithm on `Nat` (kernel-reducible variant of
`Nat.log 2`; the fuel `n` itself always suffices). -/
def log2Fuel : Nat → Nat → Nat
  | 0, _ => 0
  | fuel + 1, n => if n < 2 then 0 else log2Fuel fuel (n / 2) + 1

/-- Fuel-driven base-2 ceiling logarithm on `Nat` (kernel-reducible variant of
`Nat.clog 2`). -/
def clog2Fuel : Nat → Nat → Nat
  | 0, _ => 0
  | fuel + 1, n => if n ≤ 1 then 0 else clog2Fuel fuel ((n + 1) / 2) + 1

/-- Base-2 floor logarithm of a positive rational (the mathematical
`⌊log₂ q⌋`, following the shape of Mathlib's `Int.log 2`, implemented so
that the kernel can evaluate it). -/
def ratLog2 (q : ℚ) : ℤ :=
  if 1 ≤ q then (log2Fuel ⌊q⌋.toNat ⌊q⌋.toNat : ℤ)
  else -(clog2Fuel (qceil (qdiv 1 q)).toNat (qceil (qdiv 1 q)).toNat : ℤ)

/-- Integer power of two as a rational, kernel-reducible; agrees with
`zpow` by `pow2_eq`. -/
def pow2 (g : ℤ) : ℚ :=
  match g with
  | Int.ofNat n => Rat.divInt ((2 ^ n : ℕ) : ℤ) 1
  | Int.negSucc n => Rat.divInt 1 ((2 ^ (n + 1) : ℕ) : ℤ)

/-- Round a positive rational to the nearest `f32` value (normal range):
a 24-bit significand, round to nearest, ties to even.  Every `f32` is an
exact rational, so the result is again a `ℚ`. -/
def toF32Pos (q : ℚ) : ℚ :=
  let g : ℤ := ratLog2 q - 23
  qmul (Rat.divInt (roundHalfEven (qdiv q (pow2 g))) 1) (pow2 g)

/-- Round a rational to the nearest `f32` value (normal range and zero; the
claims' values are all far from the subnormal/overflow thresholds). -/
def toF32 (q : ℚ) : ℚ :=
  if q = 0 then 0
  else if 0 < q then toF32Pos q
  else qneg (toF32Pos (qneg q))

/-- IEEE binary32 subtraction on exactly-represented values: subtract exactly,
then round to the nearest `f32` (correct rounding, as IEEE mandates). -/
def fsub (x y : ℚ) : ℚ := toF32 (qsub x y)

/-- `f32::abs`, exact on `f32` values. -/
def fabs (q : ℚ) : ℚ := qabs q

/-- `f32::EPSILON` = 2⁻²³, as an exact rational. -/
def f32EPSILON : ℚ := Rat.divInt 1 (2 ^ 23)

/-- Digit-string to `Nat`, `none` unless the list is a non-empty run of
decimal digits. -/
def digitsToNat (l : List Char) : Option Nat :=
  if l ≠ [] ∧ l.all Char.isDigit then
    some (l.foldl (fun n c => 10 * n + (c.toNat - 48)) 0)
  else none

/-- Split a character list at every `'.'` (the shape analysis done by float
parsing on its input). -/
def splitDots : List Char → List (List Char)
  | [] => [[]]
  | c :: rest =>
    match splitDots rest with
    | [] => [[c]]
    | h :: t => if c = '.' then [] :: h :: t else (c :: h) :: t

/-- Model of `str::parse::<f32>` (Rust std, external to this repository) on
plain unsigned decimal literals `DDD` or `DDD.DDD`: read the exact decimal
value and round it to the nearest `f32` (Rust's parse is correctly rounded).
Other accepted Rust forms (signs, exponents, `inf`, `nan`) fall outside the
claims and are not modelled; on them and on malformed input this returns
`none`. -/
def parseF32 (s : String) : Option ℚ :=
  match splitDots s.toList with
  | [i] => (digitsToNat i).map (fun n => toF32 (Rat.divInt (n : ℤ) 1))
  | [i, f] =>
    match digitsToNat i, digitsToNat f with
    | some n, some m =>
      some (toF32 (Rat.divInt ((n : ℤ) * (10 : ℤ) ^ f.length + (m : ℤ))
        ((10 : ℤ) ^ f.length)))
    | _, _ => none
  | _ => none

/-- `App::set_color_and_brightness` (`src/app.rs`): first the color half —
when the color input is non-empty of length exactly 7, call the fleet-wide
`set_color` (logging any error) and reset the color input to `"#"`; then
parse the brightness input as an `f32` — on a parse error log it and return
early — and call the fleet-wide `set_brightness` only when the parsed value
differs from the current device's cached brightness by more than
`f32::EPSILON`, clearing the brightness input in that case; finally close the
settings form. -/
def App.set_color_and_brightness (net : Net) (a : App) : App × List Request :=
  let step1 :=
    if a.color_input ≠ "" ∧ a.color_input.length = 7 then
      let o := Devices.set_color net (stripHash a.color_input) a.devices
      let logs1 :=
        match o.result with
        | Except.error e => a.logs ++ [e]
        | Except.ok _ => a.logs
      ({ a with devices := ⟨o.bulbs⟩, logs := logs1, color_input := "#" }, o.trace)
    else (a, ([] : List Request))
  let a1 := step1.1
  match parseF32 a1.brightness_input with
  | none => ({ a1 with logs := a1.logs ++ ["invalid float literal"] }, step1.2)
  | some v =>
    let cur := a1.devices.bulbs.getD a1.current_device_index default
    if fabs (fsub v cur.bulb.brightness) > f32EPSILON then
      let o := Devices.set_brightness net v a1.devices
      let logs2 :=
        match o.result with
        | Except.error e => a1.logs ++ [e]
        | Except.ok _ => a1.logs
      ({ a1 with
          devices := ⟨o.bulbs⟩,
          logs := logs2,
          brightness_input := "",
          currently_setting := none,
          current_widget := CurrentWidget.Devices }, step1.2 ++ o.trace)
    else
      ({ a1 with
          currently_setting := none,
          current_widget := CurrentWidget.Devices }, step1.2)

/-- The current-index invariant of the interaction state machine (spec §3):
`0` on the empty list, otherwise strictly below the device count. -/
def indexInvariant (a : App) : Prop :=
  (a.devices.bulbs = [] → a.current_device_index = 0) ∧
  (a.devices.bulbs ≠ [] → a.current_device_index < a.devices.bulbs.length)

instance (a : App) : Decidable (indexInvariant a) := by
  unfold indexInvariant; infer_instance

/-- The summary text a successful status fetch of `d` returns (`""` on
failure); used to state `Devices::get_status`'s concatenation. -/
def statusTextOf (net : Net) (d : Device) : String :=
  match (Device.get_status net d).result with
  | Except.ok s => s
  | Except.error _ => ""

/-- Sample bulb state decoded from a status body in the test fixtures. -/
def bulb1 : Bulb := ⟨1, "#ABCDEF", 1⟩

/-- Fixture: a network on which every HTTP call succeeds with body `"ok"` and
every status body decodes to `bulb1`. -/
def net_ok : Net := ⟨fun _ => Except.ok "ok", fun _ => Except.ok bulb1⟩

/-- Fixture: a network on which every HTTP call fails. -/
def net_err : Net :=
  ⟨fun _ => Except.error "connection refused", fun _ => Except.error "decode error"⟩

/-- Fixture: a network on which only the status fetch of `10.0.0.1` fails. -/
def net_one_down : Net :=
  ⟨fun r =>
    match r with
    | Request.getStatus ip =>
      if ip == "10.0.0.1" then Except.error "connection refused" else Except.ok "ok"
    | _ => Except.ok "ok",
   fun _ => Except.ok bulb1⟩

/-- Fixture: an ordinary selected device. -/
def dev0 : Device := ⟨⟨1, "#FFFFFF", 1⟩, "192.168.0.2", "lamp", true⟩

/-- Fixture: a device whose cached `enabled` holds the non-boolean byte `2`
(reachable: the status JSON carries an integer and the config file is
deserialized without range checking). -/
def dev_two : Device := ⟨⟨1, "#FFFFFF", 2⟩, "192.168.0.3", "", true⟩

/-- Fixture: selected device at `10.0.0.1`, power on. -/
def devA : Device := ⟨⟨1, "#FFFFFF", 1⟩, "10.0.0.1", "", true⟩

/-- Fixture: selected device at `10.0.0.2`, power off. -/
def devB : Device := ⟨⟨1, "#FFFFFF", 0⟩, "10.0.0.2", "", true⟩

/-- Fixture: unselected device at `10.0.0.3`, power off. -/
def devC : Device := ⟨⟨1, "#FFFFFF", 0⟩, "10.0.0.3", "", false⟩

/-- Fixture: the three-device fleet of the spec's `toggleAll` example. -/
def fleetABC : Devices := ⟨[devA, devB, devC]⟩

/-- Fixture: a fleet with no selected device. -/
def fleetNoneSel : Devices := ⟨[devC, { devB with selected := false }]⟩

/-- Fixture: the initial interactive state with an empty fleet. -/
def app0 : App :=
  ⟨⟨[]⟩, [], 0, CurrentWidget.Devices, none, none, 0, "", "", "", ""⟩

/-- Fixture: the add-device form filled in with a fresh address. -/
def app_add : App :=
  { app0 with
      ip_input := "10.0.0.1",
      name_input := "lamp",
      current_widget := CurrentWidget.AddDevice,
      currently_adding := some CurrentlyAdding.IP }

/-- Fixture: an app already holding the device at `10.0.0.9`. -/
def app_disc : App := { app0 with devices := ⟨[{ dev0 with ip := "10.0.0.9" }]⟩ }

/-- Fixture: the settings form over a device with cached brightness `1/2`,
brightness input `"0.8"`. -/
def app_set : App :=
  { app0 with
      devices := ⟨[{ dev0 with bulb := { dev0.bulb with brightness := Rat.divInt 1 2 } }]⟩,
      brightness_input := "0.8",
      color_input := "#",
      current_widget := CurrentWidget.DeviceSettings,
      currently_setting := some CurrentlySetting.Brightness }

/-- Fixture: same settings form with brightness input `"0.5000001"`. -/
def app_set_eps : App := { app_set with brightness_input := "0.5000001" }

/-- Fixture: a 16-byte datagram that is not the pong magic. -/
def pongOther : List Nat := List.replicate 16 120

end BulbsTui
namespace BulbsTui

/-- The kernel-computable subtraction agrees with `Sub.sub` on `ℚ`. -/
theorem qsub_eq (a b : ℚ) : qsub a b = a - b := by
  have ha : ((a.den : ℤ)) ≠ 0 := Int.natCast_ne_zero.mpr a.den_nz
  have hb : ((b.den : ℤ)) ≠ 0 := Int.natCast_ne_zero.mpr b.den_nz
  conv_rhs => rw [← Rat.num_divInt_den a, ← Rat.num_divInt_den b]
  rw [Rat.divInt_sub_divInt _ _ ha hb, qsub]

/-- The kernel-computable multiplication agrees with `Mul.mul` on `ℚ`. -/
theorem qmul_eq (a b : ℚ) : qmul a b = a * b := by
  conv_rhs => rw [← Rat.num_divInt_den a, ← Rat.num_divInt_den b]
  rw [Rat.divInt_mul_divInt', qmul]

/-- The kernel-computable division agrees with `Div.div` on `ℚ`. -/
theorem qdiv_eq (a b : ℚ) : qdiv a b = a / b := by
  conv_rhs => rw [← Rat.num_divInt_den a, ← Rat.num_divInt_den b]
  rw [Rat.divInt_div_divInt, qdiv]

/-- The kernel-computable negation agrees with `Neg.neg` on `ℚ`. -/
theorem qneg_eq (a : ℚ) : qneg a = -a := by
  rw [Rat.neg_def, qneg]

/-- The kernel-computable absolute value agrees with `abs` on `ℚ`. -/
theorem qabs_eq (a : ℚ) : qabs a = |a| := by
  rcases le_or_lt 0 a.num with h | h
  · rw [abs_of_nonneg (Rat.num_nonneg.mp h), qabs, Int.natAbs_of_nonneg h,
      Rat.num_divInt_den]
  · have h0 : a < 0 := by
      by_contra hc
      exact absurd (Rat.num_nonneg.mpr (not_lt.mp hc)) (not_le.mpr h)
    rw [abs_of_neg h0, qabs, Int.ofNat_natAbs_of_nonpos h.le, ← Rat.neg_divInt,
      Rat.num_divInt_den]

/-- The kernel-computable ceiling agrees with `Int.ceil` on `ℚ`. -/
theorem qceil_eq (q : ℚ) : qceil q = ⌈q⌉ := by
  rw [qceil, qneg_eq, Int.floor_neg, neg_neg]

/-- `pow2` agrees with the integer power of `2` on `ℚ`. -/
theorem pow2_eq (g : ℤ) : pow2 g = (2 : ℚ) ^ g := by
  cases g with
  | ofNat n =>
    show Rat.divInt ((2 ^ n : ℕ) : ℤ) 1 = (2 : ℚ) ^ (Int.ofNat n)
    rw [Rat.divInt_one, show (Int.ofNat n) = (n : ℤ) from rfl, zpow_natCast]
    push_cast
    ring
  | negSucc n =>
    show Rat.divInt 1 ((2 ^ (n + 1) : ℕ) : ℤ) = (2 : ℚ) ^ (Int.negSucc n)
    rw [zpow_negSucc, Rat.divInt_eq_div]
    push_cast
    rw [one_div]

/-- `f32EPSILON` is the machine epsilon 2⁻²³. -/
theorem f32EPSILON_eq : f32EPSILON = 1 / 2 ^ 23 := by
  rw [f32EPSILON, Rat.divInt_eq_div]
  norm_num

/-- `roundHalfEven` written with the standard `ℚ` operations. -/
theorem roundHalfEven_eq (q : ℚ) : roundHalfEven q =
    if q - ⌊q⌋ < 1 / 2 then ⌊q⌋
    else if (1 / 2 : ℚ) < q - ⌊q⌋ then ⌊q⌋ + 1
    else if ⌊q⌋ % 2 = 0 then ⌊q⌋ else ⌊q⌋ + 1 := by
  have h2 : Rat.divInt 1 2 = (1 / 2 : ℚ) := by
    rw [Rat.divInt_eq_div]; norm_num
  rw [roundHalfEven, qsub_eq, Rat.divInt_one, h2]

/-- A status fetch issues exactly the one GET request, whatever its outcome. -/
theorem get_status_trace (net : Net) (d : Device) :
    (Device.get_status net d).trace = [Request.getStatus d.ip] := by
  unfold Device.get_status
  cases hh : net.http (Request.getStatus d.ip) with
  | error e => simp
  | ok resp => cases hd : net.decodeBulb resp <;> simp [hd]

/-- A status fetch never changes the device's address. -/
theorem get_status_dev_ip (net : Net) (d : Device) :
    (Device.get_status net d).dev.ip = d.ip := by
  unfold Device.get_status
  cases hh : net.http (Request.getStatus d.ip) with
  | error e => simp
  | ok resp => cases hd : net.decodeBulb resp <;> simp [hd]

/-- C3: for every single-device control operation, a failure leaves the
device's cached local state (brightness, color, enabled flag, and everything
else) exactly as it was before the call; local state is only mutated after a
successful network call. -/
theorem device_ops_error_preserves_state (net : Net) (d : Device)
    (c : String) (b : ℚ) (e : String) :
    ((Device.get_status net d).result = Except.error e →
      (Device.get_status net d).dev = d) ∧
    ((Device.on net d).result = Except.error e → (Device.on net d).dev = d) ∧
    ((Device.off net d).result = Except.error e → (Device.off net d).dev = d) ∧
    ((Device.toggle net d).result = Except.error e → (Device.toggle net d).dev = d) ∧
    ((Device.set_color net c d).result = Except.error e →
      (Device.set_color net c d).dev = d) ∧
    ((Device.set_brightness net b d).result = Except.error e →
      (Device.set_brightness net b d).dev = d) := by
  refine ⟨?_, ?_, ?_, ?_, ?_, ?_⟩
  · intro h
    unfold Device.get_status at h ⊢
    cases hh : net.http (Request.getStatus d.ip) with
    | error e2 => simp [hh]
    | ok resp => cases hd : net.decodeBulb resp <;> simp_all
  · intro h
    unfold Device.on at h ⊢
    cases hh : net.http (Request.turnOn d.ip) <;> simp_all
  · intro h
    unfold Device.off at h ⊢
    cases hh : net.http (Request.turnOff d.ip) <;> simp_all
  · intro h
    unfold Device.toggle at h ⊢
    by_cases he : d.bulb.enabled = 1
    · unfold Device.off at h ⊢
      cases hh : net.http (Request.turnOff d.ip) <;> simp_all
    · unfold Device.on at h ⊢
      cases hh : net.http (Request.turnOn d.ip) <;> simp_all
  · intro h
    unfold Device.set_color at h ⊢
    cases hh : net.http (Request.putColor d.ip (stripHash c)) <;> simp_all
  · intro h
    unfold Device.set_brightness at h ⊢
    cases hh : net.http (Request.putBrightness d.ip b) <;> simp_all

/-- Witness for C3: a concrete failing call leaves the concrete device
untouched. -/
theorem device_ops_error_preserves_state_instance :
    (Device.on net_err dev0).result = Except.error "connection refused" ∧
    (Device.on net_err dev0).dev = dev0 :=
  ⟨by decide,
   (device_ops_error_preserves_state net_err dev0 "ABCDEF" 1
      "connection refused").2.1 (by decide)⟩

/-- C7 counterexample: the cached `enabled` is a `u8`, and the non-boolean
byte `2` is reachable (status JSON / config deserialization).  Starting from
`enabled = 2` the first toggle issues the ON command (although the flag is
nonzero, i.e. "enabled"), and two successful toggles end at `enabled = 0`,
not at the original value `2`. -/
theorem device_toggle_nonboolean_example :
    dev_two.bulb.enabled = 2 ∧
    (Device.toggle net_ok dev_two).trace = [Request.turnOn "192.168.0.3"] ∧
    (Device.toggle net_ok dev_two).result = Except.ok () ∧
    (Device.toggle net_ok ((Device.toggle net_ok dev_two).dev)).result = Except.ok () ∧
    (Device.toggle net_ok ((Device.toggle net_ok dev_two).dev)).dev.bulb.enabled = 0 := by
  decide

/-- C7 (amended): `toggle` issues the OFF command exactly when the cached
`enabled` equals `1` and the ON command otherwise; and when the cached value
is boolean (`0` or `1`), two consecutive successful toggles return the device
— in particular its cached `enabled` flag — exactly to its original value. -/
theorem device_toggle_involution (net : Net) (d : Device)
    (hb : d.bulb.enabled = 0 ∨ d.bulb.enabled = 1)
    (hok : ∀ r, ∃ s, net.http r = Except.ok s) :
    (Device.toggle net d).trace
      = [if d.bulb.enabled = 1 then Request.turnOff d.ip else Request.turnOn d.ip] ∧
    (Device.toggle net d).result = Except.ok () ∧
    (Device.toggle net ((Device.toggle net d).dev)).dev = d := by
  obtain ⟨s1, hs1⟩ := hok (Request.turnOn d.ip)
  obtain ⟨s2, hs2⟩ := hok (Request.turnOff d.ip)
  obtain ⟨⟨br, co, en⟩, ip, name, sel⟩ := d
  simp only at hs1 hs2
  rcases hb with hb | hb <;> simp only at hb <;> subst hb <;>
    simp [Device.toggle, Device.on, Device.off, hs1, hs2]

/-- Witness for C7: at a fully reachable network and a device with boolean
cached state, two toggles restore the device. -/
theorem device_toggle_involution_instance :
    (dev0.bulb.enabled = 0 ∨ dev0.bulb.enabled = 1) ∧
    (Device.toggle net_ok dev0).trace = [Request.turnOff dev0.ip] ∧
    (Device.toggle net_ok ((Device.toggle net_ok dev0).dev)).dev = dev0 := by
  have h := device_toggle_involution net_ok dev0 (Or.inr (by decide))
    (fun r => ⟨"ok", rfl⟩)
  exact ⟨Or.inr (by decide), by rw [h.1]; decide, h.2.2⟩

/-- The reference scan returns `0` when no device is selected. -/
theorem firstSelectedEnabled_none (l : List Device)
    (h : ∀ d ∈ l, d.selected = false) : firstSelectedEnabled l = 0 := by
  induction l with
  | nil => rfl
  | cons d rest ih =>
    have hd := h d (by simp)
    simp only [firstSelectedEnabled, hd, Bool.false_eq_true, if_false]
    exact ih (fun x hx => h x (by simp [hx]))

/-- A batch loop over a fleet with no selected device does nothing. -/
theorem batchGo_no_selected (op : Device → DevOutcome Unit) (l : List Device)
    (h : ∀ d ∈ l, d.selected = false) :
    batchGo op l = ⟨Except.ok (), l, []⟩ := by
  induction l with
  | nil => rfl
  | cons d rest ih =>
    have hd := h d (by simp)
    simp [batchGo, hd, ih (fun x hx => h x (by simp [hx]))]

/-- C10: on a fleet with no selected device, `Devices::toggle` reads the
reference power state as `0`, dispatches the turn-on branch, and that branch
touches nothing: the call succeeds, issues no network request, and every
device (state and selection flag alike) is unchanged. -/
theorem fleet_toggle_no_selected_noop (net : Net) (ds : Devices)
    (h : ∀ d ∈ ds.bulbs, d.selected = false) :
    firstSelectedEnabled ds.bulbs = 0 ∧
    Devices.toggle net ds = Devices.on net ds ∧
    (Devices.toggle net ds).result = Except.ok () ∧
    (Devices.toggle net ds).bulbs = ds.bulbs ∧
    (Devices.toggle net ds).trace = [] := by
  have h0 := firstSelectedEnabled_none ds.bulbs h
  have hon : Devices.on net ds = ⟨Except.ok (), ds.bulbs, []⟩ :=
    batchGo_no_selected _ _ h
  have ht : Devices.toggle net ds = Devices.on net ds := by
    rw [Devices.toggle, h0]
    simp
  exact ⟨h0, ht, by rw [ht, hon], by rw [ht, hon], by rw [ht, hon]⟩

/-- Witness for C10 on a concrete two-device fleet with nothing selected. -/
theorem fleet_toggle_no_selected_noop_instance :
    (∀ d ∈ fleetNoneSel.bulbs, d.selected = false) ∧
    (Devices.toggle net_ok fleetNoneSel).result = Except.ok () ∧
    (Devices.toggle net_ok fleetNoneSel).bulbs = fleetNoneSel.bulbs ∧
    (Devices.toggle net_ok fleetNoneSel).trace = [] := by
  have h := fleet_toggle_no_selected_noop net_ok fleetNoneSel (by decide)
  exact ⟨by decide, h.2.2.1, h.2.2.2.1, h.2.2.2.2⟩


/-- A batch loop whose per-device operation always succeeds maps every
selected device through `f` (leaving unselected devices alone) and issues
exactly one request per selected device, in fleet order. -/
theorem batchGo_map_ok (op : Device → DevOutcome Unit) (f : Device → Device)
    (g : Device → Request)
    (hop : ∀ dv, dv.selected = true → op dv = ⟨Except.ok (), f dv, [g dv]⟩)
    (l : List Device) :
    batchGo op l =
      ⟨Except.ok (), l.map (fun dv => if dv.selected then f dv else dv),
        (l.filter (fun dv => dv.selected)).map g⟩ := by
  induction l with
  | nil => rfl
  | cons d rest ih =>
    by_cases hd : d.selected = true
    · simp [batchGo, hd, hop d hd, ih]
    · rw [Bool.not_eq_true] at hd
      simp [batchGo, hd, ih]

/-- The reference scan reads the cached `enabled` of the first selected
device. -/
theorem firstSelectedEnabled_first (l1 : List Device) (dv : Device)
    (l2 : List Device) (h1 : ∀ x ∈ l1, x.selected = false)
    (hd : dv.selected = true) :
    firstSelectedEnabled (l1 ++ dv :: l2) = dv.bulb.enabled := by
  induction l1 with
  | nil => simp [firstSelectedEnabled, hd]
  | cons x xs ih =>
    have hx := h1 x (by simp)
    simp only [List.cons_append, firstSelectedEnabled, hx, Bool.false_eq_true,
      if_false]
    exact ih (fun y hy => h1 y (by simp [hy]))

/-- C4: with at least one selected device and every network call succeeding,
`Devices::toggle` takes its reference from the first selected device's cached
`enabled` (no status fetch is issued), then moves every selected device to
OFF when that reference is `1` and to ON otherwise — all selected devices end
in the same power state — while no unselected device is changed. -/
theorem fleet_toggle_lockstep (net : Net) (ds : Devices)
    (hsel : ds.bulbs.any (fun dv => dv.selected) = true)
    (hok : ∀ r, ∃ s, net.http r = Except.ok s) :
    (Devices.toggle net ds).result = Except.ok () ∧
    (Devices.toggle net ds).bulbs
      = ds.bulbs.map (fun dv =>
          if dv.selected then
            { dv with bulb := { dv.bulb with
                enabled := if firstSelectedEnabled ds.bulbs = 1 then 0 else 1 } }
          else dv) ∧
    (∀ ip, Request.getStatus ip ∉ (Devices.toggle net ds).trace) ∧
    (∀ l1 dv l2, ds.bulbs = l1 ++ dv :: l2 → (∀ x ∈ l1, x.selected = false) →
       dv.selected = true → firstSelectedEnabled ds.bulbs = dv.bulb.enabled) := by
  have hon : ∀ dv : Device, dv.selected = true →
      Device.on net dv = ⟨Except.ok (),
        { dv with bulb := { dv.bulb with enabled := 1 } }, [Request.turnOn dv.ip]⟩ := by
    intro dv _
    obtain ⟨s, hs⟩ := hok (Request.turnOn dv.ip)
    simp [Device.on, hs]
  have hoff : ∀ dv : Device, dv.selected = true →
      Device.off net dv = ⟨Except.ok (),
        { dv with bulb := { dv.bulb with enabled := 0 } }, [Request.turnOff dv.ip]⟩ := by
    intro dv _
    obtain ⟨s, hs⟩ := hok (Request.turnOff dv.ip)
    simp [Device.off, hs]
  have hfirst : ∀ l1 dv l2, ds.bulbs = l1 ++ dv :: l2 →
      (∀ x ∈ l1, x.selected = false) → dv.selected = true →
      firstSelectedEnabled ds.bulbs = dv.bulb.enabled := by
    intro l1 dv l2 hsplit hl1 hdv
    rw [hsplit]
    exact firstSelectedEnabled_first l1 dv l2 hl1 hdv
  by_cases h1 : firstSelectedEnabled ds.bulbs = 1
  · have hb := batchGo_map_ok (Device.off net)
      (fun dv => { dv with bulb := { dv.bulb with enabled := 0 } })
      (fun dv => Request.turnOff dv.ip) hoff ds.bulbs
    have ht : Devices.toggle net ds = Devices.off net ds := by
      rw [Devices.toggle, if_pos h1]
    rw [ht, Devices.off, hb]
    refine ⟨rfl, by simp [h1], ?_, hfirst⟩
    intro ip hmem
    simp only [List.mem_map] at hmem
    obtain ⟨dv, -, hdv⟩ := hmem
    exact Request.noConfusion hdv
  · have hb := batchGo_map_ok (Device.on net)
      (fun dv => { dv with bulb := { dv.bulb with enabled := 1 } })
      (fun dv => Request.turnOn dv.ip) hon ds.bulbs
    have ht : Devices.toggle net ds = Devices.on net ds := by
      rw [Devices.toggle, if_neg h1]
    rw [ht, Devices.on, hb]
    refine ⟨rfl, by simp [h1], ?_, hfirst⟩
    intro ip hmem
    simp only [List.mem_map] at hmem
    obtain ⟨dv, -, hdv⟩ := hmem
    exact Request.noConfusion hdv

/-- Witness for C4: the spec's example fleet `[A(sel,on), B(sel,off),
C(unsel,off)]` — A and B both end OFF, C is untouched. -/
theorem fleet_toggle_lockstep_instance :
    (fleetABC.bulbs.any (fun dv => dv.selected) = true) ∧
    (Devices.toggle net_ok fleetABC).result = Except.ok () ∧
    (Devices.toggle net_ok fleetABC).bulbs
      = fleetABC.bulbs.map (fun dv =>
          if dv.selected then
            { dv with bulb := { dv.bulb with
                enabled := if firstSelectedEnabled fleetABC.bulbs = 1 then 0 else 1 } }
          else dv) := by
  have h := fleet_toggle_lockstep net_ok fleetABC (by decide) (fun r => ⟨"ok", rfl⟩)
  exact ⟨by decide, h.1, h.2.1⟩

end BulbsTui
namespace BulbsTui

/-- A freshly constructed device carries the given address. -/
theorem Device.new_ip (ip name : String) : (Device.new ip name).ip = ip := rfl

/-- `App::add_device` on a duplicate address: log the message, change nothing
else, issue no request. -/
theorem add_device_dup (net : Net) (a : App)
    (hdup : a.devices.bulbs.any (fun x => x.ip == a.ip_input) = true) :
    App.add_device net a
      = ({ a with logs := a.logs
            ++ ["Device \"" ++ a.ip_input ++ "\" already added"] }, []) := by
  unfold App.add_device
  simp [hdup]

/-- `App::add_device` on a fresh non-empty address whose fetch fails: log the
fetch error, change nothing else. -/
theorem add_device_fetch_err (net : Net) (a : App) (e : String)
    (hdup : a.devices.bulbs.any (fun x => x.ip == a.ip_input) = false)
    (hne : a.ip_input ≠ "")
    (ho : (Device.get_status net (Device.new a.ip_input a.name_input)).result
        = Except.error e) :
    App.add_device net a
      = ({ a with logs := a.logs ++ [e] }, [Request.getStatus a.ip_input]) := by
  unfold App.add_device
  simp [hdup, hne, ho, get_status_trace, Device.new_ip]

/-- `App::add_device` on a fresh non-empty address whose fetch succeeds:
append the fetched device, log the summary, clear the inputs, close the
form. -/
theorem add_device_fetch_ok (net : Net) (a : App) (v : String)
    (hdup : a.devices.bulbs.any (fun x => x.ip == a.ip_input) = false)
    (hne : a.ip_input ≠ "")
    (ho : (Device.get_status net (Device.new a.ip_input a.name_input)).result
        = Except.ok v) :
    App.add_device net a
      = ({ a with
            logs := a.logs ++ [v],
            devices := ⟨a.devices.bulbs
              ++ [(Device.get_status net (Device.new a.ip_input a.name_input)).dev]⟩,
            ip_input := "",
            name_input := "",
            currently_adding := none,
            current_widget := CurrentWidget.Devices },
         [Request.getStatus a.ip_input]) := by
  unfold App.add_device
  simp [hdup, hne, ho, get_status_trace, Device.new_ip]

/-- C1: the add operation (the duplicate gate of `App::add_device` combined
with the fetch-then-append of the fleet-level add) rejects an address already
present — logging the duplicate-device error and leaving the fleet unchanged,
so adding the same address twice yields exactly one device — and appends a
fresh address if and only if its initial status fetch succeeds, propagating
the fetch's error (into the log) and leaving the fleet unchanged on
failure. -/
theorem add_device_dedup_and_fetch_gate (net : Net) (a : App) :
    (a.devices.bulbs.any (fun x => x.ip == a.ip_input) = true →
      (App.add_device net a).1.devices = a.devices ∧
      (App.add_device net a).1.logs
        = a.logs ++ ["Device \"" ++ a.ip_input ++ "\" already added"] ∧
      (App.add_device net a).2 = []) ∧
    (a.devices.bulbs.any (fun x => x.ip == a.ip_input) = false → a.ip_input ≠ "" →
      ((App.add_device net a).1.devices.bulbs
          = a.devices.bulbs
            ++ [(Device.get_status net (Device.new a.ip_input a.name_input)).dev]
        ↔ ∃ v, (Device.get_status net (Device.new a.ip_input a.name_input)).result
            = Except.ok v) ∧
      (∀ e, (Device.get_status net (Device.new a.ip_input a.name_input)).result
          = Except.error e →
        (App.add_device net a).1.devices = a.devices ∧
        (App.add_device net a).1.logs = a.logs ++ [e]) ∧
      (∀ v, (Device.get_status net (Device.new a.ip_input a.name_input)).result
          = Except.ok v →
        ∀ a2 : App, a2.devices = (App.add_device net a).1.devices →
          a2.ip_input = a.ip_input →
          (App.add_device net a2).1.devices = a2.devices ∧
          ((App.add_device net a2).1.devices.bulbs.filter
            (fun x => x.ip == a.ip_input)).length = 1)) := by
  refine ⟨fun hdup => ?_, fun hdup hne => ⟨?_, fun e he => ?_, fun v hv a2 hdev hip2 => ?_⟩⟩
  · rw [add_device_dup net a hdup]
    exact ⟨rfl, rfl, rfl⟩
  · constructor
    · intro heq
      cases ho : (Device.get_status net (Device.new a.ip_input a.name_input)).result with
      | ok v => exact ⟨v, rfl⟩
      | error e =>
        rw [add_device_fetch_err net a e hdup hne ho] at heq
        simp at heq
    · rintro ⟨v, hv⟩
      rw [add_device_fetch_ok net a v hdup hne hv]
  · rw [add_device_fetch_err net a e hdup hne he]
    exact ⟨rfl, rfl⟩
  · have hip : (Device.get_status net (Device.new a.ip_input a.name_input)).dev.ip
        = a.ip_input := get_status_dev_ip net (Device.new a.ip_input a.name_input)
    have hbulbs : a2.devices.bulbs
        = a.devices.bulbs
          ++ [(Device.get_status net (Device.new a.ip_input a.name_input)).dev] := by
      rw [hdev, add_device_fetch_ok net a v hdup hne hv]
    have hd2 : a2.devices.bulbs.any (fun x => x.ip == a2.ip_input) = true := by
      rw [hbulbs, hip2]
      simp only [List.any_append, Bool.or_eq_true]
      right
      simp [hip]
    have hnil : a.devices.bulbs.filter (fun x => x.ip == a.ip_input) = [] := by
      rw [List.filter_eq_nil_iff]
      exact fun x hx => by simpa using List.any_eq_false.mp hdup x hx
    constructor
    · rw [add_device_dup net a2 hd2]
    · rw [add_device_dup net a2 hd2]
      show (a2.devices.bulbs.filter (fun x => x.ip == a.ip_input)).length = 1
      rw [hbulbs, List.filter_append, hnil]
      simp [hip]

/-- Witness for C1: adding a fresh reachable address once appends it; the
second add of the same address is rejected and the fleet keeps exactly one
device with that address. -/
theorem add_device_dedup_and_fetch_gate_instance :
    app_add.devices.bulbs.any (fun x => x.ip == app_add.ip_input) = false ∧
    app_add.ip_input ≠ "" ∧
    (Device.get_status net_ok (Device.new app_add.ip_input app_add.name_input)).result
      = Except.ok "10.0.0.1: ok" ∧
    (App.add_device net_ok { (App.add_device net_ok app_add).1 with
        ip_input := app_add.ip_input }).1.devices
      = ({ (App.add_device net_ok app_add).1 with
          ip_input := app_add.ip_input } : App).devices ∧
    ((App.add_device net_ok { (App.add_device net_ok app_add).1 with
        ip_input := app_add.ip_input }).1.devices.bulbs.filter
          (fun x => x.ip == app_add.ip_input)).length = 1 := by
  have h := ((add_device_dedup_and_fetch_gate net_ok app_add).2 (by decide)
    (by decide)).2.2 "10.0.0.1: ok" (by decide)
    { (App.add_device net_ok app_add).1 with ip_input := app_add.ip_input }
    (by decide) (by decide)
  exact ⟨by decide, by decide, by decide, h.1, h.2⟩

end BulbsTui
namespace BulbsTui

/-- C8: the interaction state machine's current index satisfies
`0 ≤ index < len(devices)` for a non-empty list and equals `0` for the empty
list, and every operation (navigation up/down, selection, removal, add)
preserves this invariant; removing the current device when it is the last
element leaves the index at the new `len - 1` — never out of bounds. -/
theorem current_index_invariant_preserved (net : Net) (a : App)
    (h : indexInvariant a) :
    indexInvariant (App.prev_device a) ∧
    indexInvariant (App.next_device a) ∧
    indexInvariant (App.select_device a) ∧
    indexInvariant (App.remove_device a) ∧
    indexInvariant (App.add_device net a).1 ∧
    (a.devices.bulbs ≠ [] →
      a.current_device_index = a.devices.bulbs.length - 1 →
      (App.remove_device a).current_device_index
          = (App.remove_device a).devices.bulbs.length - 1 ∧
      (App.remove_device a).devices.bulbs.length = a.devices.bulbs.length - 1) := by
  obtain ⟨hemp, hlt⟩ := h
  have hrem : ∀ hne : a.devices.bulbs ≠ [],
      (App.remove_device a).devices.bulbs.length = a.devices.bulbs.length - 1 ∧
      (App.remove_device a).current_device_index = a.current_device_index - 1 := by
    intro hne
    unfold App.remove_device App.prev_device
    rw [if_neg hne]
    exact ⟨List.length_eraseIdx_of_lt (hlt hne), rfl⟩
  refine ⟨?_, ?_, ?_, ?_, ?_, ?_⟩
  · -- prev_device
    by_cases hne : a.devices.bulbs = []
    · exact ⟨fun _ => by simp [App.prev_device, hemp hne], fun hc => absurd hne hc⟩
    · refine ⟨fun hc => absurd hc hne, fun _ => ?_⟩
      have := hlt hne
      simp only [App.prev_device]
      omega
  · -- next_device
    unfold App.next_device
    by_cases hc : a.current_device_index < a.devices.bulbs.length - 1
    · rw [if_pos hc]
      refine ⟨fun hb => ?_, fun _ => ?_⟩
      · rw [hb] at hc
        simp at hc
      · simp only
        omega
    · rw [if_neg hc]
      exact ⟨hemp, hlt⟩
  · -- select_device
    unfold App.select_device
    by_cases hne : a.devices.bulbs = []
    · rw [if_pos hne]
      exact ⟨hemp, hlt⟩
    · rw [if_neg hne]
      refine ⟨fun hb => ?_, fun _ => ?_⟩
      · exfalso
        apply hne
        have := congrArg List.length hb
        simpa using List.eq_nil_of_length_eq_zero (by simpa using this)
      · simpa using hlt hne
  · -- remove_device
    by_cases hne : a.devices.bulbs = []
    · unfold App.remove_device
      rw [if_pos hne]
      exact ⟨hemp, hlt⟩
    · obtain ⟨hlen, hidx⟩ := hrem hne
      have hl := hlt hne
      refine ⟨fun hb => ?_, fun hb => ?_⟩
      · have : (App.remove_device a).devices.bulbs.length = 0 := by rw [hb]; rfl
        omega
      · have : (App.remove_device a).devices.bulbs.length ≠ 0 := by
          intro hz
          exact hb (List.eq_nil_of_length_eq_zero hz)
        omega
  · -- add_device
    by_cases hdup : a.devices.bulbs.any (fun x => x.ip == a.ip_input) = true
    · rw [add_device_dup net a hdup]
      exact ⟨hemp, hlt⟩
    · rw [Bool.not_eq_true] at hdup
      by_cases hne : a.ip_input = ""
      · have hd : (App.add_device net a).1.devices = a.devices := by
          unfold App.add_device
          simp only [hne]
          split <;> rfl
        have hi : (App.add_device net a).1.current_device_index
            = a.current_device_index := by
          unfold App.add_device
          simp only [hne]
          split <;> rfl
        exact ⟨fun hb => by rw [hi]; exact hemp (hd ▸ hb),
               fun hb => by rw [hi, hd]; exact hlt (hd ▸ hb)⟩
      · cases ho : (Device.get_status net (Device.new a.ip_input a.name_input)).result with
        | error e =>
          rw [add_device_fetch_err net a e hdup hne ho]
          exact ⟨hemp, hlt⟩
        | ok v =>
          rw [add_device_fetch_ok net a v hdup hne ho]
          refine ⟨fun hb => ?_, fun _ => ?_⟩
          · have := congrArg List.length hb
            simp at this
          · show a.current_device_index < (a.devices.bulbs ++ [_]).length
            rw [List.length_append]
            by_cases hq : a.devices.bulbs = []
            · rw [hemp hq]
              simp
            · have := hlt hq
              simp only [List.length_singleton]
              omega
  · -- removing the last element clamps to the new len - 1
    intro hne hlast
    obtain ⟨hlen, hidx⟩ := hrem hne
    have := hlt hne
    constructor
    · omega
    · exact hlen

/-- Witness for C8 on a concrete one-device app with index 0. -/
theorem current_index_invariant_preserved_instance :
    indexInvariant app_disc ∧
    indexInvariant (App.remove_device app_disc) ∧
    (app_disc.devices.bulbs ≠ [] →
      app_disc.current_device_index = app_disc.devices.bulbs.length - 1 →
      (App.remove_device app_disc).current_device_index
          = (App.remove_device app_disc).devices.bulbs.length - 1 ∧
      (App.remove_device app_disc).devices.bulbs.length
          = app_disc.devices.bulbs.length - 1) := by
  have hinv : indexInvariant app_disc := by decide
  have h := current_index_invariant_preserved net_ok app_disc hinv
  exact ⟨hinv, h.2.2.2.1, h.2.2.2.2.2⟩

end BulbsTui
namespace BulbsTui

/-- C2 counterexample: two fresh addresses are discovered; the add of the
first fails, and the loop `return`s — the second address is never fetched and
never added, although it is not present in the fleet.  The discovery add
loop is therefore fail-fast, not best-effort. -/
theorem discover_add_error_aborts_loop_example :
    (App.discover net_one_down (Except.ok ["10.0.0.1", "10.0.0.2"]) app0).1.devices.bulbs
      = [] ∧
    (App.discover net_one_down (Except.ok ["10.0.0.1", "10.0.0.2"]) app0).2
      = [Request.getStatus "10.0.0.1"] ∧
    app0.devices.bulbs.any (fun x => x.ip == "10.0.0.2") = false ∧
    (App.discover net_one_down (Except.ok ["10.0.0.1", "10.0.0.2"]) app0).1.logs
      = ["connection refused"] := by
  decide

end BulbsTui
namespace BulbsTui

/-- C6 counterexample: the receive buffer is reused across datagrams, so
after a genuine pong the 1-byte datagram `[98]` (`"b"`) leaves the buffer
equal to the magic again and its sender is collected although its payload is
not the 16-byte pong magic. -/
theorem discover_bulbs_stale_buffer_example :
    discover_bulbs [RecvResult.datagram BULBS_PONG "10.0.0.1",
      RecvResult.datagram [98] "10.0.0.2", RecvResult.wouldBlock]
      = Except.ok ["10.0.0.1", "10.0.0.2"] ∧
    [98] ≠ BULBS_PONG ∧ ([98] : List Nat).length ≠ 16 := by
  decide

/-- Reading a full-length datagram replaces the whole buffer. -/
theorem recvInto_full (buf payload : List Nat) (h : payload.length = buf.length) :
    recvInto buf payload = payload := by
  unfold recvInto
  rw [h, min_self, List.drop_length, List.append_nil, ← h, List.take_length]

/-- The discovery receive loop over a run of full-length (16-byte) datagrams
followed by a terminator: every datagram equal to the pong magic contributes
its sender, in arrival order. -/
theorem discover_go_msgs (msgs : List (List Nat × String)) (buf : List Nat)
    (devs : List String) (rest : List RecvResult)
    (hbuf : buf.length = 16) (hlen : ∀ p ∈ msgs, p.1.length = 16) :
    ∃ buf2 : List Nat, buf2.length = 16 ∧
      discover_go buf devs ((msgs.map fun p => RecvResult.datagram p.1 p.2) ++ rest)
        = discover_go buf2
            (devs ++ (msgs.filter (fun p => p.1 = BULBS_PONG)).map Prod.snd) rest := by
  induction msgs generalizing buf devs with
  | nil => exact ⟨buf, hbuf, by simp⟩
  | cons p msgs2 ih =>
    have hp : p.1.length = 16 := hlen p (by simp)
    have hrecv : recvInto buf p.1 = p.1 := recvInto_full buf p.1 (by rw [hp, hbuf])
    simp only [List.map_cons, List.cons_append]
    rw [show discover_go buf devs (RecvResult.datagram p.1 p.2 ::
          ((msgs2.map fun p => RecvResult.datagram p.1 p.2) ++ rest))
        = discover_go (recvInto buf p.1)
            (if recvInto buf p.1 = BULBS_PONG then devs ++ [p.2] else devs)
            ((msgs2.map fun p => RecvResult.datagram p.1 p.2) ++ rest) from rfl]
    rw [hrecv]
    by_cases hmagic : p.1 = BULBS_PONG
    · obtain ⟨buf2, hb2, heq⟩ := ih p.1 (devs ++ [p.2]) (by rw [hp])
        (fun x hx => hlen x (by simp [hx]))
      refine ⟨buf2, hb2, ?_⟩
      rw [if_pos hmagic, heq]
      simp [hmagic, List.append_assoc]
    · obtain ⟨buf2, hb2, heq⟩ := ih p.1 devs (by rw [hp])
        (fun x hx => hlen x (by simp [hx]))
      refine ⟨buf2, hb2, ?_⟩
      rw [if_neg hmagic, heq]
      simp [hmagic]

/-- C6 (amended): the receive loop compares the 16-byte receive buffer — not
the datagram payload — against the pong magic; when every received datagram
carries exactly 16 bytes the two coincide, and discovery collects precisely
the senders of payload-equals-magic datagrams, in arrival order.  A receive
timeout ends discovery normally with the addresses collected so far (the
empty list if nothing matched), while any non-timeout receive error aborts
discovery with that error.  (With shorter datagrams the buffer retains stale
bytes and a sender can be collected although its payload is not the magic —
see the counterexample.) -/
theorem discover_bulbs_spec (msgs : List (List Nat × String)) (m : String)
    (hlen : ∀ p ∈ msgs, p.1.length = 16) :
    discover_bulbs ((msgs.map fun p => RecvResult.datagram p.1 p.2)
        ++ [RecvResult.wouldBlock])
      = Except.ok ((msgs.filter (fun p => p.1 = BULBS_PONG)).map Prod.snd) ∧
    discover_bulbs ((msgs.map fun p => RecvResult.datagram p.1 p.2)
        ++ [RecvResult.fail m])
      = Except.error m := by
  constructor
  · obtain ⟨buf2, -, heq⟩ := discover_go_msgs msgs (List.replicate 16 0) []
      [RecvResult.wouldBlock] (by simp) hlen
    rw [discover_bulbs, heq]
    simp [discover_go]
  · obtain ⟨buf2, -, heq⟩ := discover_go_msgs msgs (List.replicate 16 0) []
      [RecvResult.fail m] (by simp) hlen
    rw [discover_bulbs, heq]
    simp [discover_go]

/-- Witness for C6: one pong and one non-magic 16-byte datagram; only the
pong's sender is collected, and a non-timeout error propagates. -/
theorem discover_bulbs_spec_instance :
    (∀ p ∈ [(BULBS_PONG, "10.0.0.1"), (pongOther, "10.0.0.7")], p.1.length = 16) ∧
    discover_bulbs (([(BULBS_PONG, "10.0.0.1"), (pongOther, "10.0.0.7")].map
        fun p => RecvResult.datagram p.1 p.2) ++ [RecvResult.wouldBlock])
      = Except.ok (([(BULBS_PONG, "10.0.0.1"), (pongOther, "10.0.0.7")].filter
          (fun p => p.1 = BULBS_PONG)).map Prod.snd) ∧
    discover_bulbs (([(BULBS_PONG, "10.0.0.1"), (pongOther, "10.0.0.7")].map
        fun p => RecvResult.datagram p.1 p.2) ++ [RecvResult.fail "io error"])
      = Except.error "io error" :=
  ⟨by decide,
   (discover_bulbs_spec [(BULBS_PONG, "10.0.0.1"), (pongOther, "10.0.0.7")]
     "io error" (by decide)).1,
   (discover_bulbs_spec [(BULBS_PONG, "10.0.0.1"), (pongOther, "10.0.0.7")]
     "io error" (by decide)).2⟩

end BulbsTui
namespace BulbsTui

/-- `String.join` unfolds on cons. -/
theorem string_join_cons (h1 : String) (t : List String) :
    String.join (h1 :: t) = h1 ++ String.join t := by
  apply String.ext
  simp [String.join_eq]

/-- A string of length zero is empty. -/
theorem string_length_zero_eq_empty (s : String) (h : s.length = 0) : s = "" := by
  apply String.ext
  have h2 : s.data.length = 0 := h
  simpa using List.length_eq_zero.mp h2

/-- A status fetch either fails leaving the device unchanged, or succeeds
with the `"<ip>: <body>"` summary and the decoded bulb. -/
theorem get_status_cases (net : Net) (d : Device) :
    (∃ e, Device.get_status net d
        = ⟨Except.error e, d, [Request.getStatus d.ip]⟩) ∨
    (∃ resp b, net.decodeBulb resp = Except.ok b ∧
      Device.get_status net d
        = ⟨Except.ok (d.ip ++ ": " ++ resp), { d with bulb := b },
           [Request.getStatus d.ip]⟩) := by
  cases hh : net.http (Request.getStatus d.ip) with
  | error e =>
    exact Or.inl ⟨e, by unfold Device.get_status; simp only [hh]⟩
  | ok resp =>
    cases hd : net.decodeBulb resp with
    | error e =>
      exact Or.inl ⟨e, by unfold Device.get_status; simp only [hh, hd]⟩
    | ok b =>
      exact Or.inr ⟨resp, b, hd, by unfold Device.get_status; simp only [hh, hd]⟩

/-- A successful status fetch returns a non-empty summary (it always contains
`": "`). -/
theorem get_status_ok_text_ne_empty (net : Net) (d : Device) (s : String)
    (h : (Device.get_status net d).result = Except.ok s) : s ≠ "" := by
  rcases get_status_cases net d with ⟨e, hcase⟩ | ⟨resp, b, -, hcase⟩
  · rw [hcase] at h
    simp at h
  · rw [hcase] at h
    have h2 : Except.ok (d.ip ++ ": " ++ resp) = Except.ok s := h
    have h3 : d.ip ++ ": " ++ resp = s := by injection h2
    intro hc
    rw [hc] at h3
    have hlen := congrArg String.length h3
    rw [String.length_append, String.length_append] at hlen
    rw [show (": " : String).length = 2 from rfl,
      show ("" : String).length = 0 from rfl] at hlen
    omega

/-- The accumulating loop of `Devices::get_status` when every selected
fetch succeeds: concatenates the summaries of the selected devices in fleet
order, updates exactly the selected devices, and issues one GET per selected
device in order. -/
theorem get_status_go_all_ok (net : Net) (l : List Device)
    (h : ∀ d ∈ l, d.selected = true →
      ∃ s, (Device.get_status net d).result = Except.ok s) :
    get_status_go net l =
      ⟨Except.ok (String.join ((l.filter (fun dv => dv.selected)).map (statusTextOf net))),
       l.map (fun x => if x.selected then (Device.get_status net x).dev else x),
       (l.filter (fun dv => dv.selected)).map (fun dv => Request.getStatus dv.ip)⟩ := by
  induction l with
  | nil => rfl
  | cons d rest ih =>
    by_cases hd : d.selected = true
    · obtain ⟨s, hs⟩ := h d (by simp) hd
      have htext : statusTextOf net d = s := by rw [statusTextOf, hs]
      simp [get_status_go, hd, hs, htext, get_status_trace,
        ih (fun x hx hsx => h x (by simp [hx]) hsx), string_join_cons]
    · rw [Bool.not_eq_true] at hd
      simp [get_status_go, hd, ih (fun x hx hsx => h x (by simp [hx]) hsx)]

/-- The accumulating loop of `Devices::get_status` stops at the first
selected device whose fetch fails: that error is the result, devices past
the failing one are neither updated nor queried. -/
theorem get_status_go_failfast (net : Net) (l1 : List Device) (d : Device)
    (l2 : List Device) (e : String)
    (h1 : ∀ x ∈ l1, x.selected = true →
      ∃ s, (Device.get_status net x).result = Except.ok s)
    (hd : d.selected = true)
    (he : (Device.get_status net d).result = Except.error e) :
    get_status_go net (l1 ++ d :: l2) =
      ⟨Except.error e,
       (l1.map (fun x => if x.selected then (Device.get_status net x).dev else x))
         ++ (Device.get_status net d).dev :: l2,
       (l1.filter (fun x => x.selected)).map (fun x => Request.getStatus x.ip)
         ++ [Request.getStatus d.ip]⟩ := by
  induction l1 with
  | nil => simp [get_status_go, hd, he, get_status_trace]
  | cons x xs ih =>
    by_cases hx : x.selected = true
    · obtain ⟨s, hs⟩ := h1 x (by simp) hx
      simp [get_status_go, hx, hs, get_status_trace,
        ih (fun y hy hsy => h1 y (by simp [hy]) hsy)]
    · rw [Bool.not_eq_true] at hx
      simp [get_status_go, hx, ih (fun y hy hsy => h1 y (by simp [hy]) hsy)]

/-- C5: `Devices::get_status` fetches each selected device in fleet
(insertion) order and concatenates the summaries; at the first per-device
failure it stops, propagates that error, and leaves every later device
unqueried and unchanged; and when no device was selected (so nothing was
updated) it returns the `None` no-output sentinel rather than an error. -/
theorem fleet_get_status_failfast_spec (net : Net) (ds : Devices) :
    ((∀ d ∈ ds.bulbs, d.selected = true →
        ∃ s, (Device.get_status net d).result = Except.ok s) →
      (Devices.get_status net ds).result
        = Except.ok
            (if ds.bulbs.filter (fun dv => dv.selected) = [] then none
             else some (String.join
               ((ds.bulbs.filter (fun dv => dv.selected)).map (statusTextOf net)))) ∧
      (Devices.get_status net ds).bulbs
        = ds.bulbs.map (fun x => if x.selected then (Device.get_status net x).dev else x) ∧
      (Devices.get_status net ds).trace
        = (ds.bulbs.filter (fun dv => dv.selected)).map
            (fun dv => Request.getStatus dv.ip)) ∧
    (∀ l1 d l2 e, ds.bulbs = l1 ++ d :: l2 →
      (∀ x ∈ l1, x.selected = true →
        ∃ s, (Device.get_status net x).result = Except.ok s) →
      d.selected = true →
      (Device.get_status net d).result = Except.error e →
      (Devices.get_status net ds).result = Except.error e ∧
      (Devices.get_status net ds).bulbs
        = (l1.map (fun x => if x.selected then (Device.get_status net x).dev else x))
            ++ (Device.get_status net d).dev :: l2 ∧
      (Devices.get_status net ds).trace
        = (l1.filter (fun x => x.selected)).map (fun x => Request.getStatus x.ip)
            ++ [Request.getStatus d.ip]) := by
  constructor
  · intro h
    have hgo := get_status_go_all_ok net ds.bulbs h
    unfold Devices.get_status
    rw [hgo]
    refine ⟨?_, rfl, rfl⟩
    show (Except.ok (String.join ((ds.bulbs.filter (fun dv => dv.selected)).map
        (statusTextOf net)))).map (fun s => if s = "" then none else some s)
      = Except.ok
          (if ds.bulbs.filter (fun dv => dv.selected) = [] then none
           else some (String.join
             ((ds.bulbs.filter (fun dv => dv.selected)).map (statusTextOf net))))
    cases hfil : ds.bulbs.filter (fun dv => dv.selected) with
    | nil => simp [Except.map, String.join]
    | cons d0 t =>
      have hd0mem : d0 ∈ ds.bulbs :=
        List.mem_of_mem_filter (hfil ▸ List.mem_cons_self d0 t)
      have hd0sel : d0.selected = true := by
        have := List.of_mem_filter (hfil ▸ List.mem_cons_self d0 t)
        simpa using this
      obtain ⟨s, hs⟩ := h d0 hd0mem hd0sel
      have hne : statusTextOf net d0 ≠ "" := by
        rw [statusTextOf, hs]
        exact get_status_ok_text_ne_empty net d0 s hs
      have hjoin : String.join ((d0 :: t).map (statusTextOf net)) ≠ "" := by
        rw [List.map_cons, string_join_cons]
        intro hc
        have hlen := congrArg String.length hc
        rw [String.length_append, show ("" : String).length = 0 from rfl] at hlen
        exact hne (string_length_zero_eq_empty _ (by omega))
      simp only [Except.map]
      rw [if_neg hjoin]
      simp
  · intro l1 d l2 e hsplit h1 hd he
    unfold Devices.get_status
    rw [hsplit, get_status_go_failfast net l1 d l2 e h1 hd he]
    exact ⟨rfl, rfl, rfl⟩

/-- Witness for C5: the first selected device of a three-device fleet fails,
the error propagates and only that one GET was issued. -/
theorem fleet_get_status_failfast_spec_instance :
    fleetABC.bulbs = [] ++ devA :: [devB, devC] ∧
    devA.selected = true ∧
    (Device.get_status net_one_down devA).result = Except.error "connection refused" ∧
    (Devices.get_status net_one_down fleetABC).result
      = Except.error "connection refused" ∧
    (Devices.get_status net_one_down fleetABC).trace
      = [Request.getStatus "10.0.0.1"] := by
  have h := (fleet_get_status_failfast_spec net_one_down fleetABC).2 [] devA
    [devB, devC] "connection refused" (by decide) (by simp) (by decide) (by decide)
  refine ⟨by decide, by decide, by decide, h.1, ?_⟩
  rw [h.2.2]
  decide

end BulbsTui
namespace BulbsTui

/-- C9: on confirming the settings form (color half inert), once the
brightness input parses as an `f32`, the fleet-wide set-brightness call is
issued if and only if the absolute `f32` difference between the parsed value
and the current device's cached brightness exceeds `f32::EPSILON` (2⁻²³); in
particular `"0.5000001"` parses to `0.5 + 2⁻²³`, whose difference from the
cached `0.5` is exactly epsilon — not above it — so no call is issued, while
`"0.8"` differs by about `0.3` and the call is issued. -/
theorem brightness_epsilon_gate (net : Net) (a : App) (v : ℚ)
    (hcolor : a.color_input.length ≠ 7)
    (hparse : parseF32 a.brightness_input = some v)
    (hidx : a.current_device_index < a.devices.bulbs.length) :
    (fabs (fsub v (a.devices.bulbs.getD a.current_device_index default).bulb.brightness)
        > f32EPSILON →
      App.set_color_and_brightness net a
        = ({ a with
              devices := ⟨(Devices.set_brightness net v a.devices).bulbs⟩,
              logs :=
                match (Devices.set_brightness net v a.devices).result with
                | Except.error e => a.logs ++ [e]
                | Except.ok _ => a.logs,
              brightness_input := "",
              currently_setting := none,
              current_widget := CurrentWidget.Devices },
           (Devices.set_brightness net v a.devices).trace)) ∧
    (¬ fabs (fsub v (a.devices.bulbs.getD a.current_device_index default).bulb.brightness)
        > f32EPSILON →
      App.set_color_and_brightness net a
        = ({ a with
              currently_setting := none,
              current_widget := CurrentWidget.Devices }, [])) ∧
    parseF32 "0.5000001" = some (Rat.divInt 4194305 8388608) ∧
    ¬ fabs (fsub (Rat.divInt 4194305 8388608) (Rat.divInt 1 2)) > f32EPSILON ∧
    parseF32 "0.8" = some (Rat.divInt 13421773 16777216) ∧
    fabs (fsub (Rat.divInt 13421773 16777216) (Rat.divInt 1 2)) > f32EPSILON := by
  have hc : ¬ (a.color_input ≠ "" ∧ a.color_input.length = 7) := fun hh => hcolor hh.2
  refine ⟨?_, ?_, by decide, by decide, by decide, by decide⟩
  · intro hgt
    unfold App.set_color_and_brightness
    rw [if_neg hc]
    simp only [hparse]
    rw [if_pos hgt]
    simp
  · intro hgt
    unfold App.set_color_and_brightness
    rw [if_neg hc]
    simp only [hparse]
    rw [if_neg hgt]

/-- Witness for C9: the two concrete settings-form confirmations of the spec
— `"0.8"` against cached `1/2` issues the fleet call and clears the input,
`"0.5000001"` against cached `1/2` issues nothing. -/
theorem brightness_epsilon_gate_instance :
    app_set.color_input.length ≠ 7 ∧
    parseF32 app_set.brightness_input = some (Rat.divInt 13421773 16777216) ∧
    app_set.current_device_index < app_set.devices.bulbs.length ∧
    fabs (fsub (Rat.divInt 13421773 16777216)
        (app_set.devices.bulbs.getD app_set.current_device_index default).bulb.brightness)
      > f32EPSILON ∧
    App.set_color_and_brightness net_ok app_set
      = ({ app_set with
            devices := ⟨(Devices.set_brightness net_ok (Rat.divInt 13421773 16777216)
              app_set.devices).bulbs⟩,
            logs :=
              match (Devices.set_brightness net_ok (Rat.divInt 13421773 16777216)
                  app_set.devices).result with
              | Except.error e => app_set.logs ++ [e]
              | Except.ok _ => app_set.logs,
            brightness_input := "",
            currently_setting := none,
            current_widget := CurrentWidget.Devices },
         (Devices.set_brightness net_ok (Rat.divInt 13421773 16777216)
           app_set.devices).trace) ∧
    parseF32 app_set_eps.brightness_input = some (Rat.divInt 4194305 8388608) ∧
    ¬ fabs (fsub (Rat.divInt 4194305 8388608)
        (app_set_eps.devices.bulbs.getD app_set_eps.current_device_index
          default).bulb.brightness)
      > f32EPSILON ∧
    App.set_color_and_brightness net_ok app_set_eps
      = ({ app_set_eps with
            currently_setting := none,
            current_widget := CurrentWidget.Devices }, []) :=
  ⟨by decide, by decide, by decide, by decide,
   (brightness_epsilon_gate net_ok app_set (Rat.divInt 13421773 16777216)
     (by decide) (by decide) (by decide)).1 (by decide),
   by decide, by decide,
   (brightness_epsilon_gate net_ok app_set_eps (Rat.divInt 4194305 8388608)
     (by decide) (by decide) (by decide)).2.1 (by decide)⟩


/-- One step of the discovery add loop, as a rewriting equation. -/
theorem discover_go_cons (net : Net) (a : App) (i : String) (t : List String) :
    App.discover_go net a (i :: t)
      = if a.devices.bulbs.any (fun x => x.ip == i) then
          App.discover_go net a t
        else
          match (Device.get_status net (Device.new i "")).result with
          | Except.error e =>
            ({ a with logs := a.logs ++ [e] },
             (Device.get_status net (Device.new i "")).trace)
          | Except.ok v =>
            ((App.discover_go net
                { a with
                    logs := a.logs ++ [v],
                    devices := ⟨a.devices.bulbs
                      ++ [(Device.get_status net (Device.new i "")).dev]⟩ } t).1,
             (Device.get_status net (Device.new i "")).trace
               ++ (App.discover_go net
                   { a with
                       logs := a.logs ++ [v],
                       devices := ⟨a.devices.bulbs
                         ++ [(Device.get_status net (Device.new i "")).dev]⟩ } t).2) := rfl

/-- An address already present in the fleet is skipped by the discovery add
loop. -/
theorem discover_go_skip (net : Net) (a : App) (i : String) (t : List String)
    (hp : a.devices.bulbs.any (fun x => x.ip == i) = true) :
    App.discover_go net a (i :: t) = App.discover_go net a t := by
  rw [discover_go_cons]
  simp [hp]

/-- A fresh address whose fetch succeeds is appended (with the summary
logged) and the loop continues from the grown fleet. -/
theorem discover_go_fresh (net : Net) (a : App) (i : String) (t : List String)
    (v : String)
    (hp : a.devices.bulbs.any (fun x => x.ip == i) = false)
    (hok : (Device.get_status net (Device.new i "")).result = Except.ok v) :
    App.discover_go net a (i :: t)
      = ((App.discover_go net
            { a with
                logs := a.logs ++ [v],
                devices := ⟨a.devices.bulbs
                  ++ [(Device.get_status net (Device.new i "")).dev]⟩ } t).1,
         Request.getStatus i ::
           (App.discover_go net
             { a with
                 logs := a.logs ++ [v],
                 devices := ⟨a.devices.bulbs
                   ++ [(Device.get_status net (Device.new i "")).dev]⟩ } t).2) := by
  rw [discover_go_cons]
  simp [hp, hok, get_status_trace, Device.new_ip]

/-- A fresh address whose fetch fails ends the whole loop: the error is
logged and the remaining addresses are dropped. -/
theorem discover_go_err (net : Net) (a : App) (ip : String) (rest : List String)
    (e : String)
    (hp : a.devices.bulbs.any (fun x => x.ip == ip) = false)
    (herr : (Device.get_status net (Device.new ip "")).result = Except.error e) :
    App.discover_go net a (ip :: rest)
      = ({ a with logs := a.logs ++ [e] }, [Request.getStatus ip]) := by
  rw [discover_go_cons]
  simp [hp, herr, get_status_trace, Device.new_ip]


/-- The discovery add loop when no reached fresh address fails: already
present addresses are skipped and some sublist `fresh` of the discovered
addresses — exactly those not present when reached — is appended, in
discovery order, as the fetched devices; afterwards every discovered address
is present in the fleet. -/
theorem discover_go_success (net : Net) :
    ∀ (ips : List String) (a : App),
      (∀ i ∈ ips, a.devices.bulbs.any (fun x => x.ip == i) = true ∨
        ∃ v, (Device.get_status net (Device.new i "")).result = Except.ok v) →
      ∃ fresh : List String, fresh.Sublist ips ∧
        (App.discover_go net a ips).1.devices.bulbs
          = a.devices.bulbs
            ++ fresh.map (fun i => (Device.get_status net (Device.new i "")).dev) ∧
        (∀ i ∈ fresh, a.devices.bulbs.any (fun x => x.ip == i) = false) ∧
        (∀ i ∈ ips, (App.discover_go net a ips).1.devices.bulbs.any
            (fun x => x.ip == i) = true) := by
  intro ips
  induction ips with
  | nil =>
    intro a _
    exact ⟨[], List.Sublist.refl [], by simp [App.discover_go], by simp, by simp⟩
  | cons i ips2 ih =>
    intro a h
    have hskip_case : a.devices.bulbs.any (fun x => x.ip == i) = true →
        ∃ fresh : List String, fresh.Sublist (i :: ips2) ∧
          (App.discover_go net a (i :: ips2)).1.devices.bulbs
            = a.devices.bulbs
              ++ fresh.map (fun j => (Device.get_status net (Device.new j "")).dev) ∧
          (∀ j ∈ fresh, a.devices.bulbs.any (fun x => x.ip == j) = false) ∧
          (∀ j ∈ i :: ips2, (App.discover_go net a (i :: ips2)).1.devices.bulbs.any
              (fun x => x.ip == j) = true) := by
      intro hp
      obtain ⟨fresh, hsub, hbulbs, hnotin, hall⟩ := ih a (fun j hj => h j (by simp [hj]))
      rw [discover_go_skip net a i ips2 hp]
      refine ⟨fresh, hsub.cons i, hbulbs, hnotin, ?_⟩
      intro j hj
      rcases List.mem_cons.mp hj with rfl | hj2
      · rw [hbulbs]
        simp [List.any_append, hp]
      · exact hall j hj2
    rcases h i (by simp) with hp | ⟨v, hok⟩
    · exact hskip_case hp
    · by_cases hp : a.devices.bulbs.any (fun x => x.ip == i) = true
      · exact hskip_case hp
      · rw [Bool.not_eq_true] at hp
        rw [discover_go_fresh net a i ips2 v hp hok]
        obtain ⟨fresh2, hsub, hbulbs, hnotin, hall⟩ :=
          ih { a with
                logs := a.logs ++ [v],
                devices := ⟨a.devices.bulbs
                  ++ [(Device.get_status net (Device.new i "")).dev]⟩ }
            (by
              intro j hj
              rcases h j (by simp [hj]) with hpj | hfj
              · left
                simp only [List.any_append, Bool.or_eq_true]
                exact Or.inl hpj
              · right
                exact hfj)
        refine ⟨i :: fresh2, hsub.cons₂ i, ?_, ?_, ?_⟩
        · show (App.discover_go net _ ips2).1.devices.bulbs = _
          rw [hbulbs]
          simp [List.append_assoc]
        · intro j hj
          rcases List.mem_cons.mp hj with rfl | hj2
          · exact hp
          · have := hnotin j hj2
            simp only [List.any_append, Bool.or_eq_false_iff] at this
            exact this.1
        · intro j hj
          rcases List.mem_cons.mp hj with rfl | hj2
          · show (App.discover_go net _ ips2).1.devices.bulbs.any
              (fun x => x.ip == j) = true
            rw [hbulbs]
            simp only [List.any_append, Bool.or_eq_true]
            left
            right
            simp [get_status_dev_ip, Device.new_ip]
          · exact hall j hj2


/-- The discovery add loop stops at the first fresh address whose fetch
fails, even after a prefix mixing skipped (already present) addresses and
successfully added fresh ones: the result is the prefix's adds and logs plus
the logged error, the trace is the prefix's fetches plus the failing fetch,
and nothing after the failing address is processed. -/
theorem discover_go_stops (net : Net) (ip : String) (rest : List String)
    (e : String)
    (herr : (Device.get_status net (Device.new ip "")).result = Except.error e) :
    ∀ (pre : List String) (a : App),
      (∀ i ∈ pre, a.devices.bulbs.any (fun x => x.ip == i) = true ∨
        ∃ v, (Device.get_status net (Device.new i "")).result = Except.ok v) →
      a.devices.bulbs.any (fun x => x.ip == ip) = false →
      ip ∉ pre →
      ∃ added lmid tpre,
        App.discover_go net a (pre ++ ip :: rest)
          = ({ a with
                devices := ⟨a.devices.bulbs ++ added⟩,
                logs := a.logs ++ lmid ++ [e] },
             tpre ++ [Request.getStatus ip]) ∧
        (∀ dv ∈ added, dv.ip ∈ pre ∧
          a.devices.bulbs.any (fun x => x.ip == dv.ip) = false) ∧
        (∀ r ∈ tpre, ∃ j ∈ pre, r = Request.getStatus j) := by
  intro pre
  induction pre with
  | nil =>
    intro a _ hipa _
    refine ⟨[], [], [], ?_, by simp, by simp⟩
    rw [List.nil_append, discover_go_err net a ip rest e hipa herr]
    simp
  | cons i pre2 ih =>
    intro a hpre hipa hipre
    have hskip_case : a.devices.bulbs.any (fun x => x.ip == i) = true →
        ∃ added lmid tpre,
          App.discover_go net a ((i :: pre2) ++ ip :: rest)
            = ({ a with
                  devices := ⟨a.devices.bulbs ++ added⟩,
                  logs := a.logs ++ lmid ++ [e] },
               tpre ++ [Request.getStatus ip]) ∧
          (∀ dv ∈ added, dv.ip ∈ i :: pre2 ∧
            a.devices.bulbs.any (fun x => x.ip == dv.ip) = false) ∧
          (∀ r ∈ tpre, ∃ j ∈ i :: pre2, r = Request.getStatus j) := by
      intro hp
      obtain ⟨added, lmid, tpre, h1, h2, h3⟩ :=
        ih a (fun j hj => hpre j (by simp [hj])) hipa
          (fun hc => hipre (by simp [hc]))
      rw [List.cons_append, discover_go_skip net a i (pre2 ++ ip :: rest) hp]
      refine ⟨added, lmid, tpre, h1, ?_, ?_⟩
      · intro dv hdv
        exact ⟨by simp [(h2 dv hdv).1], (h2 dv hdv).2⟩
      · intro r hr
        obtain ⟨j, hj1, hj2⟩ := h3 r hr
        exact ⟨j, by simp [hj1], hj2⟩
    rcases hpre i (by simp) with hp | ⟨v, hok⟩
    · exact hskip_case hp
    · by_cases hp : a.devices.bulbs.any (fun x => x.ip == i) = true
      · exact hskip_case hp
      · rw [Bool.not_eq_true] at hp
        rw [List.cons_append,
          discover_go_fresh net a i (pre2 ++ ip :: rest) v hp hok]
        have hdevip : (Device.get_status net (Device.new i "")).dev.ip = i := by
          rw [get_status_dev_ip, Device.new_ip]
        obtain ⟨added, lmid, tpre, h1, h2, h3⟩ :=
          ih { a with
                logs := a.logs ++ [v],
                devices := ⟨a.devices.bulbs
                  ++ [(Device.get_status net (Device.new i "")).dev]⟩ }
            (by
              intro j hj
              rcases hpre j (by simp [hj]) with hpj | hfj
              · left
                simp only [List.any_append, Bool.or_eq_true]
                exact Or.inl hpj
              · right
                exact hfj)
            (by
              simp only [List.any_append, Bool.or_eq_false_iff]
              refine ⟨hipa, ?_⟩
              simp only [List.any_cons, List.any_nil, Bool.or_false]
              rw [hdevip]
              have : i ≠ ip := fun hc => hipre (by simp [hc])
              simp [this])
            (fun hc => hipre (by simp [hc]))
        rw [h1]
        refine ⟨(Device.get_status net (Device.new i "")).dev :: added,
          v :: lmid, Request.getStatus i :: tpre, ?_, ?_, ?_⟩
        · simp [List.append_assoc]
        · intro dv hdv
          rcases List.mem_cons.mp hdv with rfl | hdv2
          · refine ⟨by simp [hdevip], ?_⟩
            rw [hdevip]
            exact hp
          · obtain ⟨hmem, hnot⟩ := h2 dv hdv2
            refine ⟨by simp [hmem], ?_⟩
            simp only [List.any_append, Bool.or_eq_false_iff] at hnot
            exact hnot.1
        · intro r hr
          rcases List.mem_cons.mp hr with rfl | hr2
          · exact ⟨i, by simp, rfl⟩
          · obtain ⟨j, hj1, hj2⟩ := h3 r hr2
            exact ⟨j, by simp [hj1], hj2⟩

end BulbsTui
namespace BulbsTui

/-- C2 (amended): during discovery every discovered address already present
in the fleet is skipped and every fresh address reached is fetched-and-added
in discovery order (the success clause exhibits the added devices as the
fetches of a sublist of the discovered addresses, all of them previously
absent, after which every discovered address is present) — but an error
while adding one discovered address is logged and ABORTS the processing of
the remaining discovered addresses: the loop is fail-fast, not best-effort.
The fail-fast clause allows the prefix before the failing address to mix
skips and successful adds; afterwards only prefix addresses were added or
queried, the failing fetch is the last request, the error is the last log
line (absorbed, not propagated), and no later address is ever queried. -/
theorem discover_add_spec (net : Net) (a : App) :
    (∀ ips : List String,
      (∀ i ∈ ips, a.devices.bulbs.any (fun x => x.ip == i) = true ∨
        ∃ v, (Device.get_status net (Device.new i "")).result = Except.ok v) →
      ∃ fresh : List String, fresh.Sublist ips ∧
        (App.discover net (Except.ok ips) a).1.devices.bulbs
          = a.devices.bulbs
            ++ fresh.map (fun i => (Device.get_status net (Device.new i "")).dev) ∧
        (∀ i ∈ fresh, a.devices.bulbs.any (fun x => x.ip == i) = false) ∧
        (∀ i ∈ ips, (App.discover net (Except.ok ips) a).1.devices.bulbs.any
            (fun x => x.ip == i) = true)) ∧
    (∀ (pre : List String) (ip : String) (rest : List String) (e : String),
      (∀ i ∈ pre, a.devices.bulbs.any (fun x => x.ip == i) = true ∨
        ∃ v, (Device.get_status net (Device.new i "")).result = Except.ok v) →
      a.devices.bulbs.any (fun x => x.ip == ip) = false →
      ip ∉ pre →
      (Device.get_status net (Device.new ip "")).result = Except.error e →
      (∃ added lmid tpre,
        App.discover net (Except.ok (pre ++ ip :: rest)) a
          = ({ a with
                devices := ⟨a.devices.bulbs ++ added⟩,
                logs := a.logs ++ lmid ++ [e] },
             tpre ++ [Request.getStatus ip]) ∧
        (∀ dv ∈ added, dv.ip ∈ pre ∧
          a.devices.bulbs.any (fun x => x.ip == dv.ip) = false) ∧
        (∀ r ∈ tpre, ∃ j ∈ pre, r = Request.getStatus j)) ∧
      (∀ j, j ∉ pre → j ≠ ip →
        Request.getStatus j ∉
          (App.discover net (Except.ok (pre ++ ip :: rest)) a).2)) := by
  constructor
  · intro ips h
    exact discover_go_success net ips a h
  · intro pre ip rest e hpre hipa hipre herr
    obtain ⟨added, lmid, tpre, h1, h2, h3⟩ :=
      discover_go_stops net ip rest e herr pre a hpre hipa hipre
    refine ⟨⟨added, lmid, tpre, h1, h2, h3⟩, ?_⟩
    intro j hj1 hj2 hmem
    have heq : (App.discover net (Except.ok (pre ++ ip :: rest)) a).2
        = tpre ++ [Request.getStatus ip] := by
      show (App.discover_go net a (pre ++ ip :: rest)).2 = _
      rw [h1]
    rw [heq] at hmem
    rcases List.mem_append.mp hmem with hin | hin
    · obtain ⟨k, hk1, hk2⟩ := h3 _ hin
      have hjk : j = k := by injection hk2
      exact hj1 (hjk ▸ hk1)
    · have h4 : Request.getStatus j = Request.getStatus ip := by simpa using hin
      have h5 : j = ip := by injection h4
      exact hj2 h5

/-- Witness for C2: a concrete discovery run against `app_disc` (which
already holds `10.0.0.9`): the success clause over `["10.0.0.9",
"10.0.0.2"]` (one skip, one fresh add) and the fail-fast clause with that
same mixed prefix followed by the failing `10.0.0.1` and the never-reached
`10.0.0.3`. -/
theorem discover_add_spec_instance :
    (∀ i ∈ ["10.0.0.9", "10.0.0.2"],
      app_disc.devices.bulbs.any (fun x => x.ip == i) = true ∨
      ∃ v, (Device.get_status net_one_down (Device.new i "")).result
        = Except.ok v) ∧
    app_disc.devices.bulbs.any (fun x => x.ip == "10.0.0.1") = false ∧
    "10.0.0.1" ∉ ["10.0.0.9", "10.0.0.2"] ∧
    (Device.get_status net_one_down (Device.new "10.0.0.1" "")).result
      = Except.error "connection refused" ∧
    (∃ fresh : List String, fresh.Sublist ["10.0.0.9", "10.0.0.2"] ∧
      (App.discover net_one_down (Except.ok ["10.0.0.9", "10.0.0.2"])
          app_disc).1.devices.bulbs
        = app_disc.devices.bulbs
          ++ fresh.map
            (fun i => (Device.get_status net_one_down (Device.new i "")).dev) ∧
      (∀ i ∈ fresh, app_disc.devices.bulbs.any (fun x => x.ip == i) = false) ∧
      (∀ i ∈ ["10.0.0.9", "10.0.0.2"],
        (App.discover net_one_down (Except.ok ["10.0.0.9", "10.0.0.2"])
          app_disc).1.devices.bulbs.any (fun x => x.ip == i) = true)) ∧
    ((∃ added lmid tpre,
      App.discover net_one_down
          (Except.ok (["10.0.0.9", "10.0.0.2"] ++ "10.0.0.1" :: ["10.0.0.3"]))
          app_disc
        = ({ app_disc with
              devices := ⟨app_disc.devices.bulbs ++ added⟩,
              logs := app_disc.logs ++ lmid ++ ["connection refused"] },
           tpre ++ [Request.getStatus "10.0.0.1"]) ∧
      (∀ dv ∈ added, dv.ip ∈ ["10.0.0.9", "10.0.0.2"] ∧
        app_disc.devices.bulbs.any (fun x => x.ip == dv.ip) = false) ∧
      (∀ r ∈ tpre, ∃ j ∈ ["10.0.0.9", "10.0.0.2"], r = Request.getStatus j)) ∧
     (∀ j, j ∉ ["10.0.0.9", "10.0.0.2"] → j ≠ "10.0.0.1" →
       Request.getStatus j ∉
         (App.discover net_one_down
           (Except.ok (["10.0.0.9", "10.0.0.2"] ++ "10.0.0.1" :: ["10.0.0.3"]))
           app_disc).2)) := by
  have hips : ∀ i ∈ ["10.0.0.9", "10.0.0.2"],
      app_disc.devices.bulbs.any (fun x => x.ip == i) = true ∨
      ∃ v, (Device.get_status net_one_down (Device.new i "")).result
        = Except.ok v := by
    intro i hi
    simp only [List.mem_cons, List.not_mem_nil, or_false] at hi
    rcases hi with rfl | rfl
    · left
      decide
    · right
      exact ⟨"10.0.0.2: ok", by decide⟩
  exact ⟨hips, by decide, by decide, by decide,
    (discover_add_spec net_one_down app_disc).1 ["10.0.0.9", "10.0.0.2"] hips,
    (discover_add_spec net_one_down app_disc).2 ["10.0.0.9", "10.0.0.2"]
      "10.0.0.1" ["10.0.0.3"] "connection refused" hips (by decide) (by decide)
      (by decide)⟩

end BulbsTui
